import Mathlib

/-
  Verification of the mutual-fund page field-extraction engine
  (src/get_mutual_fund_details.py, class FundScraper).

  The extractors are shallowly embedded over a document model that mirrors
  exactly the queries the Python code performs on a parsed page:
  tables with rows and cells, heading blocks, manager cards, plus the two
  pieces of live-driver data the code consults (the awaited fund-name
  element and the texts inspected by the AUM text-scan fallback).

  Python string primitives (substring test, lower, replace, split, strip,
  join) are re-implemented on lists of characters so that every definition
  evaluates inside the kernel.
-/

namespace Groww

/-- Python substring containment over char lists: needle in hay. -/
def subList (a b : List Char) : Bool := b.tails.any (fun t => a.isPrefixOf t)

/-- Python expression needle in hay on strings. -/
def pyIn (needle hay : String) : Bool := subList needle.data hay.data

/-- Python str.lower, restricted to the ASCII case mapping used by the data. -/
def pyLower (s : String) : String := ⟨s.data.map Char.toLower⟩

/-- Fuel-driven worker for non-overlapping leftmost replacement. -/
def replaceAux (pat rep : List Char) : Nat → List Char → List Char
  | _, [] => []
  | 0, l => l
  | fuel + 1, c :: cs =>
    if pat.isPrefixOf (c :: cs) && !pat.isEmpty then
      rep ++ replaceAux pat rep fuel (cs.drop (pat.length - 1))
    else c :: replaceAux pat rep fuel cs

/-- Python str.replace: every non-overlapping occurrence, left to right. -/
def pyReplace (s pat rep : String) : String :=
  ⟨replaceAux pat.data rep.data s.data.length s.data⟩

/-- Fuel-driven worker for splitting on a separator string. -/
def splitAux (sep : List Char) : Nat → List Char → List (List Char)
  | _, [] => [[]]
  | 0, l => [l]
  | fuel + 1, c :: cs =>
    if sep.isPrefixOf (c :: cs) && !sep.isEmpty then
      [] :: splitAux sep fuel (cs.drop (sep.length - 1))
    else
      match splitAux sep fuel cs with
      | [] => [[c]]
      | h :: t => (c :: h) :: t

/-- Python str.split with a non-empty separator. -/
def pySplit (s sep : String) : List String :=
  (splitAux sep.data s.data.length s.data).map (fun l => ⟨l⟩)

/-- Python str.strip: whitespace removed from both ends. -/
def pyTrim (s : String) : String :=
  ⟨((s.data.dropWhile Char.isWhitespace).reverse.dropWhile Char.isWhitespace).reverse⟩

/-- Worker interleaving a separator between list elements. -/
def joinSep (sep : List Char) : List (List Char) → List Char
  | [] => []
  | [x] => x
  | x :: y :: t => x ++ sep ++ joinSep sep (y :: t)

/-- Python sep.join over a list of strings. -/
def pyJoin (sep : String) (l : List String) : String :=
  ⟨joinSep sep.data (l.map (fun s => s.data))⟩

/-- Python any over isdigit characters of a string. -/
def hasDigit (s : String) : Bool := s.data.any Char.isDigit

/-- The record under construction: a Python dict from field name to value. -/
abbrev Dict := List (String × String)

/-- Python dict assignment: overwrite an existing key in place, else append. -/
def dictSet : Dict → String → String → Dict
  | [], k, v => [(k, v)]
  | p :: ps, k, v => if p.1 = k then (k, v) :: ps else p :: dictSet ps k v

/-- Python dict lookup returning an option. -/
def dictGet? : Dict → String → Option String
  | [], _ => none
  | p :: ps, k => if p.1 = k then some p.2 else dictGet? ps k

/-- Python dict.get with a default. -/
def dictGetD (d : Dict) (k dflt : String) : String := (dictGet? d k).getD dflt

/-- A sequence of dict assignments, first to last. -/
def setMany (d : Dict) (kvs : List (String × String)) : Dict :=
  kvs.foldl (fun acc kv => dictSet acc kv.1 kv.2) d

/-- A table cell: its tag (td or th) and its text content. -/
structure Cell where
  tag : String
  text : String
deriving DecidableEq

/-- A table row: its cells in document order. -/
structure Row where
  cells : List Cell
deriving DecidableEq

/-- A table: its rows, and its whole-subtree text as produced by the
document model (used by the code only for containment checks). -/
structure Table where
  rows : List Row
  text : String
deriving DecidableEq

/-- Result of row.find_all with td and th: the cells bearing either tag. -/
def Row.cols (r : Row) : List Cell :=
  r.cells.filter (fun c => c.tag == "td" || c.tag == "th")

/-- Result of row.find with th: the first th cell. -/
def Row.firstTh (r : Row) : Option Cell := r.cells.find? (fun c => c.tag == "th")

/-- Result of row.find with td: the first td cell. -/
def Row.firstTd (r : Row) : Option Cell := r.cells.find? (fun c => c.tag == "td")

/-- Result of table.find_all with th: all th cells in document order. -/
def Table.ths (t : Table) : List Cell :=
  ((t.rows.map Row.cells).flatten).filter (fun c => c.tag == "th")

/-- Result of table.find_all with tr. -/
def Table.trs (t : Table) : List Row := t.rows

/-- A heading block of class mf320Heading: its text, the text of its first
h3 descendant if any, and the text of its first p descendant if any. -/
structure Heading where
  text : String
  h3 : Option String
  p : Option String
deriving DecidableEq

/-- A manager card of class fm982CardText: the texts of its name and
tenure sub-elements when present. -/
structure ManagerCard where
  name : Option String
  tenure : Option String
deriving DecidableEq

/-- The parsed document, projected onto exactly the queries the extractors
perform on the soup. -/
structure Doc where
  schemeNameH1 : Option String
  pills : List String
  tables : List Table
  headings : List Heading
  managerCards : List ManagerCard
deriving DecidableEq

/-- The live-driver data consulted during extraction: the text of the
awaited fund-name element (none when the wait raised and was caught), and
the flattened list of texts the AUM text-scan fallback inspects. -/
structure Driver where
  waitFundName : Option String
  fundSizeTexts : List String
deriving DecidableEq

/-- The literal containment test of the AUM table loop: the code checks
only the two exact casings Fund Size and Fund size. -/
def fundSizeLit (s : String) : Bool := pyIn "Fund Size" s || pyIn "Fund size" s

/-- Stripped texts of all th cells of a table, as the code builds headers. -/
def headersOfTable (t : Table) : List String := t.ths.map (fun c => pyTrim c.text)

/-- Index of the first header containing the fund-size label, if any
(the code encodes absence as -1). -/
def aumHeaderIdx (t : Table) : Option Nat :=
  (headersOfTable t).findIdx? (fun h => fundSizeLit h)

/-- Lowercased, space-stripped normalization used for fund-name matching. -/
def normName (s : String) : String := pyReplace (pyLower s) " " ""

/-- Whether a row is accepted by the AUM scan: non-empty cells,
bidirectional normalized containment between fund name and first cell,
an in-range aligned cell whose stripped text contains a digit. -/
def rowAccepts (fundName : String) (idx : Nat) (r : Row) : Bool :=
  match r.cols with
  | [] => false
  | c0 :: _ =>
    let nf := normName fundName
    let nr := normName (pyTrim c0.text)
    (subList nr.data nf.data || subList nf.data nr.data) &&
      decide (idx < r.cols.length) &&
      hasDigit (pyTrim ((r.cols.getD idx ⟨"", ""⟩).text))

/-- The stripped text of the aligned cell the AUM scan would return. -/
def rowVal (idx : Nat) (r : Row) : String := pyTrim ((r.cols.getD idx ⟨"", ""⟩).text)

/-- The row loop of the AUM table strategy: first accepted row wins. -/
def scanAumRows (fundName : String) (idx : Nat) : List Row → Option String
  | [] => none
  | r :: rs =>
    if rowAccepts fundName idx r then some (rowVal idx r)
    else scanAumRows fundName idx rs

/-- Method 1 of _extract_aum: iterate over all tables; for a table whose
text contains the literal label, locate the header column and scan rows;
on no success continue with the remaining tables. -/
def aumTableMethod (fundName : String) : List Table → Option String
  | [] => none
  | t :: ts =>
    if fundSizeLit t.text then
      match aumHeaderIdx t with
      | some idx =>
        match scanAumRows fundName idx t.rows with
        | some v => some v
        | none => aumTableMethod fundName ts
      | none => aumTableMethod fundName ts
    else aumTableMethod fundName ts

/-- Character class of the regex fragment matching digits, commas, dots. -/
def isNumChar (c : Char) : Bool := c.isDigit || c == ',' || c == '.'

/-- Match the mandatory part of the AUM regex at the start of the input:
one or more numeric characters, optional whitespace, then the letters cr
(the input is already lowercased). Returns the matched characters. -/
def matchNumCr (cs : List Char) : Option (List Char) :=
  let num := cs.takeWhile isNumChar
  if num.isEmpty then none
  else
    let rest1 := cs.drop num.length
    let sp := rest1.takeWhile Char.isWhitespace
    match rest1.drop sp.length with
    | 'c' :: 'r' :: _ => some (num ++ sp ++ ['c', 'r'])
    | _ => none

/-- Match the full AUM regex at the start of the input: an optional
currency-symbol group (rupee sign plus at most one whitespace) followed by
the numeric part. -/
def matchCurrencyAt (cs : List Char) : Option (List Char) :=
  match cs with
  | '₹' :: rest =>
    (match rest with
     | w :: rest2 =>
       if w.isWhitespace then
         match matchNumCr rest2 with
         | some m => some ('₹' :: w :: m)
         | none => none
       else
         match matchNumCr rest with
         | some m => some ('₹' :: m)
         | none => none
     | [] => none)
  | _ => matchNumCr cs

/-- Python re.search over the AUM pattern: leftmost match position wins. -/
def reSearchAux : List Char → Option (List Char)
  | [] => none
  | c :: cs =>
    match matchCurrencyAt (c :: cs) with
    | some m => some m
    | none => reSearchAux cs

/-- The regex search of the AUM fallback on a string. -/
def aumRegexSearch (s : String) : Option String :=
  (reSearchAux s.data).map (fun l => ⟨l⟩)

/-- Normalization of a matched value: currency symbol and unit suffix
removed in the order the code applies, then stripped. -/
def cleanAumVal (v : String) : String :=
  pyTrim (pyReplace (pyReplace (pyReplace (pyReplace v "₹" "") "Cr" "") "CR" "") "cr" "")

/-- Normalization the fallback applies to each candidate text before the
containment check: lowercase, newlines to spaces, carriage returns removed. -/
def normFallbackText (s : String) : String :=
  pyReplace (pyReplace (pyLower s) "\n" " ") "\r" ""

/-- Method 2 of _extract_aum: scan the candidate texts in order; skip empty
ones; on a text containing fund size, run the regex on the part after the
first occurrence of the label and return the cleaned match if any. -/
def aumFallback : List String → Option String
  | [] => none
  | t :: ts =>
    if t = "" then aumFallback ts
    else
      let norm := normFallbackText t
      if pyIn "fund size" norm then
        match aumRegexSearch ((pySplit norm "fund size").getD 1 "") with
        | some m => some (cleanAumVal m)
        | none => aumFallback ts
      else aumFallback ts

/-- FundScraper._extract_aum: table strategy first, text-scan fallback
second, NA when both fail. -/
def extract_aum (tables : List Table) (fundName : String)
    (fallbackTexts : List String) : String :=
  match aumTableMethod fundName tables with
  | some v => v
  | none =>
    match aumFallback fallbackTexts with
    | some v => v
    | none => "NA"

/-- The expense-ratio condition of a heading block. -/
def expMatch (h : Heading) : Bool := pyIn "Expense Ratio" h.text && pyIn ":" h.text

/-- The value the code stores for a matching expense block: the split
segment between the first and second colon, boilerplate removed, stripped. -/
def codeExpenseVal (t : String) : String :=
  pyTrim (pyReplace ((pySplit t ":").getD 1 "") "Inclusive of GST" "")

/-- The value stored for a matching exit-load block: the stripped text of
the p child when present, else NA. -/
def exitVal (h : Heading) : String :=
  match h.p with
  | some pt => pyTrim pt
  | none => "NA"

/-- Whether a heading block triggers the exit-load branch. -/
def exitMatch (h : Heading) : Bool :=
  match h.h3 with
  | some t3 => pyIn "Exit load" t3
  | none => false

/-- One iteration of the _extract_expense_and_load loop on the dict. -/
def elDictStep (d : Dict) (h : Heading) : Dict :=
  let d1 := if expMatch h then dictSet d "Expense Ratio" (codeExpenseVal h.text) else d
  if exitMatch h then dictSet d1 "Exit Load" (exitVal h) else d1

/-- FundScraper._extract_expense_and_load: both fields default to NA, then
every heading block may overwrite either field independently. -/
def extract_expense_and_load (hs : List Heading) (data : Dict) : Dict :=
  hs.foldl elDictStep (dictSet (dictSet data "Expense Ratio" "NA") "Exit Load" "NA")

/-- Pure pair form of the same loop, used to characterize the dict form. -/
def elStep (acc : String × String) (h : Heading) : String × String :=
  (if expMatch h then codeExpenseVal h.text else acc.1,
   if exitMatch h then exitVal h else acc.2)

/-- Final expense and exit-load values of a heading list. -/
def elPair (hs : List Heading) : String × String := hs.foldl elStep ("NA", "NA")

/-- Row loop of _extract_benchmark inside a matching table. -/
def benchRow : List Row → Option String
  | [] => none
  | r :: rs =>
    match r.firstTh, r.firstTd with
    | some th, some td =>
      if pyIn "Fund benchmark" th.text then some (pyTrim td.text) else benchRow rs
    | _, _ => benchRow rs

/-- FundScraper._extract_benchmark: tables whose text mentions the label
are scanned in order until a row with a matching header cell is found. -/
def extract_benchmark : List Table → String
  | [] => "NA"
  | t :: ts =>
    if pyIn "Fund benchmark" t.text then
      match benchRow t.rows with
      | some v => v
      | none => extract_benchmark ts
    else extract_benchmark ts

/-- The three buckets of the returns table. -/
inductive Bucket
  | fr
  | ca
  | rk
deriving DecidableEq

/-- Classification of a row by its first stripped cell text: fund-returns
first (also matched when the fund name occurs in the label), then category
average, then rank within category. -/
def rowBucket (fundName label : String) : Option Bucket :=
  if pyIn "Fund returns" label || pyIn fundName label then some .fr
  else if pyIn "Category average" label then some .ca
  else if pyIn "Rank with in category" label then some .rk
  else none

/-- The three period dictionaries built while scanning the returns table. -/
structure RRState where
  fr : Dict
  ca : Dict
  rk : Dict
deriving DecidableEq

/-- The inner header loop: for every header index beyond the first and
within the row width, record the aligned stripped cell text. -/
def setRow (headers colTexts : List String) (d : Dict) : Dict :=
  headers.enum.foldl
    (fun acc ih =>
      if 0 < ih.1 && ih.1 < colTexts.length then
        dictSet acc ih.2 (colTexts.getD ih.1 "")
      else acc)
    d

/-- One row of the returns-table scan. -/
def rrStep (fundName : String) (headers : List String) (st : RRState) (r : Row) :
    RRState :=
  let colTexts := r.cols.map (fun c => pyTrim c.text)
  match colTexts with
  | [] => st
  | label :: _ =>
    match rowBucket fundName label with
    | some .fr => { st with fr := setRow headers colTexts st.fr }
    | some .ca => { st with ca := setRow headers colTexts st.ca }
    | some .rk => { st with rk := setRow headers colTexts st.rk }
    | none => st

/-- The first table whose text mentions either returns-table label. -/
def findReturnsTable : List Table → Option Table
  | [] => none
  | t :: ts =>
    if pyIn "Rank with in category" t.text || pyIn "Category average" t.text then some t
    else findReturnsTable ts

/-- The bucket state after scanning the returns table, empty when absent. -/
def rrState (tables : List Table) (fundName : String) : RRState :=
  match findReturnsTable tables with
  | none => ⟨[], [], []⟩
  | some t => t.rows.foldl (rrStep fundName (headersOfTable t)) ⟨[], [], []⟩

/-- The canonical periods emitted regardless of the table contents. -/
def canonicalPeriods : List String := ["1Y", "3Y", "5Y", "All"]

/-- The twelve key-value pairs the emission loop assigns, in order: the
loop over the fixed canonical periods unrolled. -/
def rrKVs (st : RRState) : List (String × String) :=
  [("1Y Fund Return", dictGetD st.fr "1Y" "NA"),
   ("1Y Category Avg", dictGetD st.ca "1Y" "NA"),
   ("1Y Rank", dictGetD st.rk "1Y" "NA"),
   ("3Y Fund Return", dictGetD st.fr "3Y" "NA"),
   ("3Y Category Avg", dictGetD st.ca "3Y" "NA"),
   ("3Y Rank", dictGetD st.rk "3Y" "NA"),
   ("5Y Fund Return", dictGetD st.fr "5Y" "NA"),
   ("5Y Category Avg", dictGetD st.ca "5Y" "NA"),
   ("5Y Rank", dictGetD st.rk "5Y" "NA"),
   ("All Fund Return", dictGetD st.fr "All" "NA"),
   ("All Category Avg", dictGetD st.ca "All" "NA"),
   ("All Rank", dictGetD st.rk "All" "NA")]

/-- FundScraper._extract_returns_and_rank: scan the located table into the
three buckets, then emit the twelve canonical fields with NA defaults. -/
def extract_returns_and_rank (tables : List Table) (data : Dict) : Dict :=
  setMany data (rrKVs (rrState tables (dictGetD data "Fund Name" "")))

/-- The six ratio fields in initialization order. -/
def ratioInitKVs : List (String × String) :=
  [("P/E Ratio", "NA"), ("P/B Ratio", "NA"), ("Alpha", "NA"),
   ("Beta", "NA"), ("Sharpe", "NA"), ("Sortino", "NA")]

/-- One row of the P/E and P/B scan. -/
def peRow (d : Dict) (r : Row) : Dict :=
  let texts := r.cols.map (fun c => pyTrim c.text)
  if 2 ≤ texts.length then
    if pyIn "P/E Ratio" (texts.getD 0 "") then dictSet d "P/E Ratio" (texts.getD 1 "")
    else if pyIn "P/B Ratio" (texts.getD 0 "") then dictSet d "P/B Ratio" (texts.getD 1 "")
    else d
  else d

/-- One row of the risk-statistics scan. -/
def statRow (d : Dict) (r : Row) : Dict :=
  match r.firstTh, r.firstTd with
  | some h, some v =>
    let ht := pyTrim h.text
    let vt := pyTrim v.text
    if pyIn "Alpha" ht then dictSet d "Alpha" vt
    else if pyIn "Beta" ht then dictSet d "Beta" vt
    else if pyIn "Sharpe" ht then dictSet d "Sharpe" vt
    else if pyIn "Sortino" ht then dictSet d "Sortino" vt
    else d
  | _, _ => d

/-- Per-table body of _extract_ratios: the P/E block and the stats block
run independently on every table. -/
def ratiosTable (d : Dict) (t : Table) : Dict :=
  let d1 := if pyIn "P/E Ratio" t.text then t.rows.foldl peRow d else d
  if pyIn "Alpha" t.text && pyIn "Beta" t.text then t.rows.foldl statRow d1 else d1

/-- FundScraper._extract_ratios. -/
def extract_ratios (tables : List Table) (data : Dict) : Dict :=
  tables.foldl ratiosTable (setMany data ratioInitKVs)

/-- The display string of one manager card. -/
def managerEntry (m : ManagerCard) : String :=
  (match m.name with
   | some n => pyTrim n
   | none => "Unknown") ++ " (" ++
  (match m.tenure with
   | some t => pyTrim t
   | none => "Unknown") ++ ")"

/-- The joined manager roster; the empty roster yields the empty string. -/
def managerString (cards : List ManagerCard) : String :=
  pyJoin ", " (cards.map managerEntry)

/-- FundScraper._extract_managers. -/
def extract_managers (cards : List ManagerCard) (data : Dict) : Dict :=
  dictSet data "Fund Managers" (managerString cards)

/-- The fund name resolved by the two-tier strategy: the awaited live
element first, then the static h1 lookup, then NA. -/
def fundNameVal (drv : Driver) (doc : Doc) : String :=
  match drv.waitFundName with
  | some t => t
  | none =>
    match doc.schemeNameH1 with
    | some t => t
    | none => "NA"

/-- The fund type: text of the second pills container when present. -/
def fundTypeVal (doc : Doc) : String :=
  if 1 < doc.pills.length then doc.pills.getD 1 "" else "NA"

/-- The shared dict after the fund-name assignment. -/
def dataAfterName (drv : Driver) (doc : Doc) : Dict :=
  dictSet [] "Fund Name" (fundNameVal drv doc)

/-- The shared dict after the fund-type assignment. -/
def dataAfterType (drv : Driver) (doc : Doc) : Dict :=
  dictSet (dataAfterName drv doc) "Fund Type" (fundTypeVal doc)

/-- The shared dict after the AUM assignment; the fund name is read back
from the dict, as in the source. -/
def dataAfterAum (drv : Driver) (doc : Doc) : Dict :=
  dictSet (dataAfterType drv doc) "AUM"
    (extract_aum doc.tables (dictGetD (dataAfterType drv doc) "Fund Name" "")
      drv.fundSizeTexts)

/-- The shared dict after the expense and exit-load extractor ran. -/
def dataAfterEl (drv : Driver) (doc : Doc) : Dict :=
  extract_expense_and_load doc.headings (dataAfterAum drv doc)

/-- The shared dict after the benchmark assignment. -/
def dataAfterBench (drv : Driver) (doc : Doc) : Dict :=
  dictSet (dataAfterEl drv doc) "Benchmark" (extract_benchmark doc.tables)

/-- The shared dict after the returns-and-rank extractor ran. -/
def dataAfterRR (drv : Driver) (doc : Doc) : Dict :=
  extract_returns_and_rank doc.tables (dataAfterBench drv doc)

/-- The shared dict after the ratios extractor ran. -/
def dataAfterRatios (drv : Driver) (doc : Doc) : Dict :=
  extract_ratios doc.tables (dataAfterRR drv doc)

/-- FundScraper._parse_data: the record assembler, invoking the extractors
in the fixed source order on one shared dict; the stages above name the
successive states of the dict. -/
def parse_data (drv : Driver) (doc : Doc) : Dict :=
  extract_managers doc.managerCards (dataAfterRatios drv doc)

/-- FundScraper.scrape_url on an already-rendered document: parse, then
attach the source URL. -/
def scrape_url (drv : Driver) (doc : Doc) (url : String) : Dict :=
  dictSet (parse_data drv doc) "URL" url

/-- One scrape call with the scraper state (its only attribute, the driver
handle) threaded explicitly; no extractor reassigns it. -/
def scrape_run (drv : Driver) (doc : Doc) (url : String) : Dict × Driver :=
  (scrape_url drv doc url, drv)

/-- The canonical output schema of a Record. -/
def canonicalFields : List String :=
  ["Fund Name", "Fund Type", "AUM",
   "1Y Fund Return", "1Y Category Avg", "1Y Rank",
   "3Y Fund Return", "3Y Category Avg", "3Y Rank",
   "5Y Fund Return", "5Y Category Avg", "5Y Rank",
   "All Fund Return", "All Category Avg", "All Rank",
   "P/E Ratio", "P/B Ratio", "Alpha", "Beta", "Sharpe", "Sortino",
   "Expense Ratio", "Exit Load", "Benchmark", "Fund Managers", "URL"]

/-- The twelve returns-and-rank field names. -/
def rrFieldNames : List String :=
  ["1Y Fund Return", "1Y Category Avg", "1Y Rank",
   "3Y Fund Return", "3Y Category Avg", "3Y Rank",
   "5Y Fund Return", "5Y Category Avg", "5Y Rank",
   "All Fund Return", "All Category Avg", "All Rank"]

/-- The six ratio field names. -/
def ratioFieldNames : List String :=
  ["P/E Ratio", "P/B Ratio", "Alpha", "Beta", "Sharpe", "Sortino"]

/-- The keys of a dict in order. -/
def dictKeys (d : Dict) : List String := d.map Prod.fst

/-- Case-insensitive fund-size containment, as the spec describes the AUM
table filter. -/
def ciFundSize (s : String) : Bool := pyIn "fund size" (pyLower s)

/-- Table strategy following the SPEC wording rather than the code: consider
tables by case-insensitive containment, and run the column location and row
scan only on the first such table. Declared for comparison with
aumTableMethod. -/
def specAumTableMethod (tables : List Table) (fundName : String) : Option String :=
  match tables.find? (fun t => ciFundSize t.text) with
  | none => none
  | some t =>
    match (headersOfTable t).findIdx? (fun h => ciFundSize h) with
    | some idx => scanAumRows fundName idx t.rows
    | none => none

/-- Expense value following the SPEC wording rather than the code: the
ENTIRE substring after the first colon, boilerplate removed, stripped.
Declared for comparison with codeExpenseVal. -/
def specExpenseVal (t : String) : String :=
  pyTrim (pyReplace (pyJoin ":" ((pySplit t ":").drop 1)) "Inclusive of GST" "")

/-- Decidable equality for exception-valued results. -/
instance {ε α : Type} [DecidableEq ε] [DecidableEq α] : DecidableEq (Except ε α) := fun a b =>
  match a, b with
  | .error e1, .error e2 =>
    if h : e1 = e2 then isTrue (by rw [h]) else isFalse (by intro hc; cases hc; exact h rfl)
  | .error _, .ok _ => isFalse (by intro hc; cases hc)
  | .ok _, .error _ => isFalse (by intro hc; cases hc)
  | .ok a1, .ok a2 =>
    if h : a1 = a2 then isTrue (by rw [h]) else isFalse (by intro hc; cases hc; exact h rfl)

/-- Heading block in the exception-aware model: reading its text may raise,
which is the failure mode the error-handling claims hypothesize for an
extractor (a malformed nested structure encountered mid-parse). -/
structure HeadingE where
  textE : Except Unit String
  h3 : Option String
  p : Option String
deriving DecidableEq

/-- Document in the exception-aware model. -/
structure DocE where
  schemeNameH1 : Option String
  pills : List String
  tables : List Table
  headingsE : List HeadingE
  managerCards : List ManagerCard
deriving DecidableEq

/-- Exit-load value of an exception-aware heading block. -/
def exitValE (h : HeadingE) : String :=
  match h.p with
  | some pt => pyTrim pt
  | none => "NA"

/-- One loop iteration of _extract_expense_and_load in the exception-aware
model: the block text is read first, and the method installs no handler, so
a raise propagates out of the iteration. -/
def elDictStepE (d : Dict) (h : HeadingE) : Except Unit Dict := do
  let text ← h.textE
  let d1 :=
    if pyIn "Expense Ratio" text && pyIn ":" text then
      dictSet d "Expense Ratio" (codeExpenseVal text)
    else d
  match h.h3 with
  | some t3 => if pyIn "Exit load" t3 then pure (dictSet d1 "Exit Load" (exitValE h)) else pure d1
  | none => pure d1

/-- _extract_expense_and_load in the exception-aware model. -/
def extract_expense_and_loadE (hs : List HeadingE) (data : Dict) : Except Unit Dict :=
  hs.foldlM elDictStepE (dictSet (dictSet data "Expense Ratio" "NA") "Exit Load" "NA")

/-- _parse_data in the exception-aware model: only the fund-name wait is
wrapped in its own try block in the source; the calls to the field-group
extractors are not, so an exception raised inside one of them propagates
out of _parse_data. -/
def parse_dataE (drv : Driver) (doc : DocE) : Except Unit Dict := do
  let data : Dict := []
  let data := dictSet data "Fund Name"
    (match drv.waitFundName with
     | some t => t
     | none =>
       match doc.schemeNameH1 with
       | some t => t
       | none => "NA")
  let data := dictSet data "Fund Type"
    (if 1 < doc.pills.length then doc.pills.getD 1 "" else "NA")
  let data := dictSet data "AUM"
    (extract_aum doc.tables (dictGetD data "Fund Name" "") drv.fundSizeTexts)
  let data ← extract_expense_and_loadE doc.headingsE data
  let data := dictSet data "Benchmark" (extract_benchmark doc.tables)
  let data := extract_returns_and_rank doc.tables data
  let data := extract_ratios doc.tables data
  let data := extract_managers doc.managerCards data
  pure data

/-- scrape_url in the exception-aware model: its top-level try block turns
any exception escaping _parse_data into a logged failure with result None,
so no record at all is produced for the item. -/
def scrape_urlE (drv : Driver) (doc : DocE) (url : String) : Option Dict :=
  match parse_dataE drv doc with
  | .ok d => some (dictSet d "URL" url)
  | .error _ => none

/-- Shorthand for a th cell. -/
def thCell (s : String) : Cell := ⟨"th", s⟩

/-- Shorthand for a td cell. -/
def tdCell (s : String) : Cell := ⟨"td", s⟩

/-- A driver with no awaited fund name and no fallback texts. -/
def emptyDriver : Driver := ⟨none, []⟩

/-- A document with no extractable content at all. -/
def emptyDoc : Doc := ⟨none, [], [], [], []⟩

/-- Exception-model document whose single heading block raises when its
text is read. -/
def poisonedDoc : DocE := ⟨none, [], [], [⟨Except.error (), none, none⟩], []⟩

/-- Table with a Fund Size header, one matching row whose aligned cell text
carries surrounding whitespace, and a second matching row. -/
def cexAumTable : Table :=
  ⟨[⟨[thCell "Scheme", thCell "Fund Size"]⟩,
    ⟨[tdCell "My Alpha Fund", tdCell " ₹5 Cr "]⟩,
    ⟨[tdCell "My Alpha Fund Two", tdCell "₹7 Cr"]⟩],
   "SchemeFund SizeMy Alpha Fund ₹5 Cr My Alpha Fund Two₹7 Cr"⟩

/-- Table whose text contains the fund-size label only in lower case. -/
def cexLowerTextTable : Table :=
  ⟨[⟨[tdCell "latest fund size details"]⟩], "latest fund size details"⟩

/-- Table with a literal Fund Size header and a matching data row. -/
def cexProperTable : Table :=
  ⟨[⟨[thCell "Name", thCell "Fund Size"]⟩,
    ⟨[tdCell "Bluechip Alpha", tdCell "₹9 Cr"]⟩],
   "NameFund SizeBluechip Alpha₹9 Cr"⟩

/-- Table whose fund-size header appears only in lower case. -/
def cexLowerHeaderTable : Table :=
  ⟨[⟨[thCell "Scheme", thCell "fund size"]⟩,
    ⟨[tdCell "Bluechip Alpha", tdCell "₹3 Cr"]⟩],
   "Schemefund sizeBluechip Alpha₹3 Cr"⟩

/-- Table containing the Fund Size literal but no th header at all. -/
def cexNoHeaderTable : Table :=
  ⟨[⟨[tdCell "Fund Size info"]⟩], "Fund Size info"⟩

/-- Heading block carrying the boilerplate expense phrase. -/
def expGstHeading : Heading := ⟨"Expense Ratio: 0.75% Inclusive of GST", none, none⟩

/-- Returns table with an extra period column and no 3Y, 5Y, All columns. -/
def extraPeriodTable : Table :=
  ⟨[⟨[thCell "", thCell "1Y", thCell "10Y"]⟩,
    ⟨[tdCell "Fund returns", tdCell "7%", tdCell "9%"]⟩,
    ⟨[tdCell "Category average", tdCell "5%", tdCell "6%"]⟩],
   "1Y10YFund returns7%9%Category average5%6%"⟩

/-- Returns table used to witness the empty-fund-name classification. -/
def emptyNameTable : Table :=
  ⟨[⟨[thCell "", thCell "1Y"]⟩,
    ⟨[tdCell "Fund returns", tdCell "7%"]⟩,
    ⟨[tdCell "Category average", tdCell "5%"]⟩,
    ⟨[tdCell "Rank with in category", tdCell "4"]⟩],
   "1YFund returns7%Category average5%Rank with in category4"⟩

/-- Fund-size table whose matched row carries a digit-free value. -/
def digitlessTable : Table :=
  ⟨[⟨[thCell "Name", thCell "Fund Size"]⟩,
    ⟨[tdCell "Bluechip Alpha", tdCell "No Data Cr"]⟩],
   "NameFund SizeBluechip AlphaNo Data Cr"⟩

/-- The fund-returns dictionary obtained when every non-empty row of a
table is written into the fund-returns bucket, later rows overwriting
earlier ones. -/
def frAll (t : Table) : Dict :=
  t.rows.foldl
    (fun d r =>
      match r.cols.map (fun c => pyTrim c.text) with
      | [] => d
      | cts => setRow (headersOfTable t) cts d) []

theorem pyIn_empty (s : String) : pyIn "" s = true := by
  simp only [pyIn, subList, List.any_eq_true]
  exact ⟨s.data, by simp [List.mem_tails], by simp [List.isPrefixOf]⟩

theorem dictGet?_set_same : ∀ (d : Dict) (k v : String),
    dictGet? (dictSet d k v) k = some v := by
  intro d k v
  induction d with
  | nil => simp [dictSet, dictGet?]
  | cons p ps ih =>
    by_cases h : p.1 = k
    · simp [dictSet, dictGet?, h]
    · simp [dictSet, dictGet?, h, ih]

theorem dictGet?_set_ne : ∀ (d : Dict) (k v k' : String), k' ≠ k →
    dictGet? (dictSet d k v) k' = dictGet? d k' := by
  intro d k v k' hne
  induction d with
  | nil => simp [dictSet, dictGet?, Ne.symm hne]
  | cons p ps ih =>
    by_cases h : p.1 = k
    · simp only [dictSet, if_pos h, dictGet?]
      rw [if_neg (by intro hc; exact hne hc.symm),
        if_neg (by rw [h]; intro hc; exact hne hc.symm)]
    · simp only [dictSet, if_neg h, dictGet?]
      by_cases h2 : p.1 = k'
      · simp [h2]
      · simp [h2, ih]

theorem isSome_dictGet?_set (d : Dict) (k v k' : String)
    (h : (dictGet? d k').isSome) : (dictGet? (dictSet d k v) k').isSome := by
  by_cases he : k' = k
  · subst he; rw [dictGet?_set_same]; rfl
  · rwa [dictGet?_set_ne _ _ _ _ he]

theorem setMany_cons (d : Dict) (kv : String × String) (kvs : List (String × String)) :
    setMany d (kv :: kvs) = setMany (dictSet d kv.1 kv.2) kvs := rfl

theorem dictGet?_setMany_not_mem : ∀ (kvs : List (String × String)) (d : Dict)
    (k : String), k ∉ kvs.map Prod.fst →
    dictGet? (setMany d kvs) k = dictGet? d k := by
  intro kvs
  induction kvs with
  | nil => intro d k _; rfl
  | cons kv kvt ih =>
    intro d k hk
    simp only [List.map_cons, List.mem_cons, not_or] at hk
    rw [setMany_cons, ih _ _ hk.2, dictGet?_set_ne _ _ _ _ hk.1]

theorem isSome_setMany_pres : ∀ (kvs : List (String × String)) (d : Dict) (k : String),
    (dictGet? d k).isSome → (dictGet? (setMany d kvs) k).isSome := by
  intro kvs
  induction kvs with
  | nil => intro d k h; exact h
  | cons kv kvt ih =>
    intro d k h
    rw [setMany_cons]
    exact ih _ _ (isSome_dictGet?_set _ _ _ _ h)

theorem isSome_setMany_mem : ∀ (kvs : List (String × String)) (d : Dict) (k : String),
    k ∈ kvs.map Prod.fst → (dictGet? (setMany d kvs) k).isSome := by
  intro kvs
  induction kvs with
  | nil => intro d k h; simp at h
  | cons kv kvt ih =>
    intro d k hk
    rw [setMany_cons]
    simp only [List.map_cons, List.mem_cons] at hk
    rcases hk with hk | hk
    · subst hk
      exact isSome_setMany_pres _ _ _ (by rw [dictGet?_set_same]; rfl)
    · exact ih _ _ hk

theorem foldl_dictGet?_eq {α : Type} (step : Dict → α → Dict) (k : String)
    (hstep : ∀ d a, dictGet? (step d a) k = dictGet? d k) :
    ∀ (l : List α) (d : Dict), dictGet? (l.foldl step d) k = dictGet? d k := by
  intro l
  induction l with
  | nil => intro d; rfl
  | cons a t ih => intro d; rw [List.foldl_cons, ih, hstep]

theorem foldl_isSome {α : Type} (step : Dict → α → Dict) (k : String)
    (hstep : ∀ d a, (dictGet? d k).isSome → (dictGet? (step d a) k).isSome) :
    ∀ (l : List α) (d : Dict), (dictGet? d k).isSome →
      (dictGet? (l.foldl step d) k).isSome := by
  intro l
  induction l with
  | nil => intro d h; exact h
  | cons a t ih => intro d h; exact ih _ (hstep _ _ h)

theorem mem_dictKeys_isSome : ∀ (d : Dict) (k : String), k ∈ dictKeys d →
    (dictGet? d k).isSome := by
  intro d
  induction d with
  | nil => intro k h; simp [dictKeys] at h
  | cons p ps ih =>
    intro k hk
    simp only [dictKeys, List.map_cons, List.mem_cons] at hk
    by_cases he : p.1 = k
    · simp [dictGet?, he]
    · rcases hk with hk | hk
      · exact absurd hk.symm he
      · simp only [dictGet?, if_neg he]
        exact ih _ hk

theorem dictKeys_set (d : Dict) (k v : String) :
    dictKeys (dictSet d k v) =
      if k ∈ dictKeys d then dictKeys d else dictKeys d ++ [k] := by
  induction d with
  | nil => simp [dictSet, dictKeys]
  | cons p ps ih =>
    by_cases h : p.1 = k
    · simp [dictSet, dictKeys, h]
    · rw [show dictSet (p :: ps) k v = p :: dictSet ps k v by simp [dictSet, h],
        show dictKeys (p :: dictSet ps k v) = p.1 :: dictKeys (dictSet ps k v) from rfl,
        ih, show dictKeys (p :: ps) = p.1 :: dictKeys ps from rfl]
      by_cases hm : k ∈ dictKeys ps
      · rw [if_pos hm, if_pos (List.mem_cons_of_mem _ hm)]
      · rw [if_neg hm, if_neg (by simp [List.mem_cons, hm, Ne.symm h]),
          List.cons_append]

theorem dictKeys_set_mem (d : Dict) (k v : String) (h : k ∈ dictKeys d) :
    dictKeys (dictSet d k v) = dictKeys d := by
  rw [dictKeys_set, if_pos h]

theorem mem_dictKeys_set_self (d : Dict) (k v : String) :
    k ∈ dictKeys (dictSet d k v) := by
  rw [dictKeys_set]
  by_cases h : k ∈ dictKeys d
  · rwa [if_pos h]
  · rw [if_neg h]; simp

theorem mem_dictKeys_set_of_mem (d : Dict) (k v k' : String) (h : k' ∈ dictKeys d) :
    k' ∈ dictKeys (dictSet d k v) := by
  rw [dictKeys_set]
  by_cases hm : k ∈ dictKeys d
  · rwa [if_pos hm]
  · rw [if_neg hm]; exact List.mem_append_left _ h

theorem elDictStep_get_other (d : Dict) (h : Heading) (k : String)
    (h1 : k ≠ "Expense Ratio") (h2 : k ≠ "Exit Load") :
    dictGet? (elDictStep d h) k = dictGet? d k := by
  unfold elDictStep
  by_cases he : expMatch h <;> by_cases hx : exitMatch h <;>
    simp [he, hx, dictGet?_set_ne _ _ _ _ h1, dictGet?_set_ne _ _ _ _ h2]

theorem el_fold_pair : ∀ (hs : List Heading) (d : Dict) (e l : String),
    dictGet? d "Expense Ratio" = some e → dictGet? d "Exit Load" = some l →
    dictGet? (hs.foldl elDictStep d) "Expense Ratio" = some (hs.foldl elStep (e, l)).1 ∧
    dictGet? (hs.foldl elDictStep d) "Exit Load" = some (hs.foldl elStep (e, l)).2 := by
  intro hs
  induction hs with
  | nil => intro d e l he hl; exact ⟨he, hl⟩
  | cons h t ih =>
    intro d e l he hl
    rw [List.foldl_cons, List.foldl_cons]
    apply ih
    · by_cases hm : expMatch h <;> by_cases hx : exitMatch h <;>
        simp [elDictStep, elStep, hm, hx, dictGet?_set_same,
          dictGet?_set_ne _ _ _ _ (show ("Expense Ratio" : String) ≠ "Exit Load" by decide), he]
    · by_cases hm : expMatch h <;> by_cases hx : exitMatch h <;>
        simp [elDictStep, elStep, hm, hx, dictGet?_set_same,
          dictGet?_set_ne _ _ _ _ (show ("Exit Load" : String) ≠ "Expense Ratio" by decide), hl]

theorem el_get_exp (hs : List Heading) (data : Dict) :
    dictGet? (extract_expense_and_load hs data) "Expense Ratio" = some (elPair hs).1 :=
  (el_fold_pair hs _ "NA" "NA"
    (by rw [dictGet?_set_ne _ _ _ _ (by decide), dictGet?_set_same])
    (dictGet?_set_same _ _ _)).1

theorem el_get_exit (hs : List Heading) (data : Dict) :
    dictGet? (extract_expense_and_load hs data) "Exit Load" = some (elPair hs).2 :=
  (el_fold_pair hs _ "NA" "NA"
    (by rw [dictGet?_set_ne _ _ _ _ (by decide), dictGet?_set_same])
    (dictGet?_set_same _ _ _)).2

theorem el_get_other (hs : List Heading) (data : Dict) (k : String)
    (h1 : k ≠ "Expense Ratio") (h2 : k ≠ "Exit Load") :
    dictGet? (extract_expense_and_load hs data) k = dictGet? data k := by
  unfold extract_expense_and_load
  rw [foldl_dictGet?_eq _ _ (fun d a => elDictStep_get_other d a k h1 h2),
    dictGet?_set_ne _ _ _ _ h2, dictGet?_set_ne _ _ _ _ h1]

theorem el_fst_invariant : ∀ (hs : List Heading) (acc : String × String),
    (∀ h ∈ hs, expMatch h = false) → (hs.foldl elStep acc).1 = acc.1 := by
  intro hs
  induction hs with
  | nil => intro acc _; rfl
  | cons h t ih =>
    intro acc hall
    rw [List.foldl_cons, ih _ (fun x hx => hall x (List.mem_cons_of_mem _ hx))]
    simp [elStep, hall h (List.mem_cons_self _ _)]

theorem el_fst_last (l1 : List Heading) (h : Heading) (l2 : List Heading)
    (acc : String × String) (hm : expMatch h = true)
    (hl : ∀ x ∈ l2, expMatch x = false) :
    (((l1 ++ h :: l2).foldl elStep acc)).1 = codeExpenseVal h.text := by
  rw [List.foldl_append, List.foldl_cons, el_fst_invariant l2 _ hl]
  simp [elStep, hm]

theorem el_snd_na : ∀ (hs : List Heading) (acc : String × String), acc.2 = "NA" →
    (∀ h ∈ hs, exitMatch h = true → h.p = none) →
    (hs.foldl elStep acc).2 = "NA" := by
  intro hs
  induction hs with
  | nil => intro acc ha _; exact ha
  | cons h t ih =>
    intro acc ha hall
    rw [List.foldl_cons]
    apply ih _ _ (fun x hx => hall x (List.mem_cons_of_mem _ hx))
    by_cases hx : exitMatch h
    · simp only [elStep, hx, if_true]
      simp [exitVal, hall h (List.mem_cons_self _ _) hx]
    · simp [elStep, hx, ha]

theorem rrKVs_keys (st : RRState) : (rrKVs st).map Prod.fst = rrFieldNames := rfl

theorem rr_get_other (tables : List Table) (data : Dict) (k : String)
    (hk : k ∉ rrFieldNames) :
    dictGet? (extract_returns_and_rank tables data) k = dictGet? data k := by
  unfold extract_returns_and_rank
  apply dictGet?_setMany_not_mem
  rw [rrKVs_keys]
  exact hk

theorem rr_isSome_mem (tables : List Table) (data : Dict) (k : String)
    (hk : k ∈ rrFieldNames) :
    (dictGet? (extract_returns_and_rank tables data) k).isSome := by
  unfold extract_returns_and_rank
  exact isSome_setMany_mem _ _ _ (by rw [rrKVs_keys]; exact hk)

theorem rr_get_fields (tables : List Table) (data : Dict) :
    dictGet? (extract_returns_and_rank tables data) "1Y Fund Return" =
      some (dictGetD (rrState tables (dictGetD data "Fund Name" "")).fr "1Y" "NA") ∧
    dictGet? (extract_returns_and_rank tables data) "1Y Category Avg" =
      some (dictGetD (rrState tables (dictGetD data "Fund Name" "")).ca "1Y" "NA") ∧
    dictGet? (extract_returns_and_rank tables data) "1Y Rank" =
      some (dictGetD (rrState tables (dictGetD data "Fund Name" "")).rk "1Y" "NA") ∧
    dictGet? (extract_returns_and_rank tables data) "3Y Fund Return" =
      some (dictGetD (rrState tables (dictGetD data "Fund Name" "")).fr "3Y" "NA") ∧
    dictGet? (extract_returns_and_rank tables data) "3Y Category Avg" =
      some (dictGetD (rrState tables (dictGetD data "Fund Name" "")).ca "3Y" "NA") ∧
    dictGet? (extract_returns_and_rank tables data) "3Y Rank" =
      some (dictGetD (rrState tables (dictGetD data "Fund Name" "")).rk "3Y" "NA") ∧
    dictGet? (extract_returns_and_rank tables data) "5Y Fund Return" =
      some (dictGetD (rrState tables (dictGetD data "Fund Name" "")).fr "5Y" "NA") ∧
    dictGet? (extract_returns_and_rank tables data) "5Y Category Avg" =
      some (dictGetD (rrState tables (dictGetD data "Fund Name" "")).ca "5Y" "NA") ∧
    dictGet? (extract_returns_and_rank tables data) "5Y Rank" =
      some (dictGetD (rrState tables (dictGetD data "Fund Name" "")).rk "5Y" "NA") ∧
    dictGet? (extract_returns_and_rank tables data) "All Fund Return" =
      some (dictGetD (rrState tables (dictGetD data "Fund Name" "")).fr "All" "NA") ∧
    dictGet? (extract_returns_and_rank tables data) "All Category Avg" =
      some (dictGetD (rrState tables (dictGetD data "Fund Name" "")).ca "All" "NA") ∧
    dictGet? (extract_returns_and_rank tables data) "All Rank" =
      some (dictGetD (rrState tables (dictGetD data "Fund Name" "")).rk "All" "NA") := by
  refine ⟨?_, ?_, ?_, ?_, ?_, ?_, ?_, ?_, ?_, ?_, ?_, ?_⟩ <;>
    simp [extract_returns_and_rank, rrKVs, setMany,
      dictGet?_set_same, dictGet?_set_ne]

theorem findReturnsTable_none : ∀ (tables : List Table),
    (∀ t ∈ tables,
      (pyIn "Rank with in category" t.text || pyIn "Category average" t.text) = false) →
    findReturnsTable tables = none := by
  intro tables
  induction tables with
  | nil => intro _; rfl
  | cons t ts ih =>
    intro h
    simp only [findReturnsTable, h t (List.mem_cons_self _ _)]
    exact ih (fun x hx => h x (List.mem_cons_of_mem _ hx))

theorem rrState_empty (tables : List Table) (fn : String)
    (h : findReturnsTable tables = none) : rrState tables fn = ⟨[], [], []⟩ := by
  simp [rrState, h]

theorem ratioInit_keys : ratioInitKVs.map Prod.fst = ratioFieldNames := rfl

theorem peRow_get_other (d : Dict) (r : Row) (k : String)
    (h1 : k ≠ "P/E Ratio") (h2 : k ≠ "P/B Ratio") :
    dictGet? (peRow d r) k = dictGet? d k := by
  simp only [peRow]
  split_ifs <;>
    simp [dictGet?_set_ne _ _ _ _ h1, dictGet?_set_ne _ _ _ _ h2]

theorem statRow_get_other (d : Dict) (r : Row) (k : String)
    (hA : k ≠ "Alpha") (hB : k ≠ "Beta") (hS : k ≠ "Sharpe") (hSo : k ≠ "Sortino") :
    dictGet? (statRow d r) k = dictGet? d k := by
  rcases hth : r.firstTh with _ | hc <;> rcases htd : r.firstTd with _ | vc <;>
    simp only [statRow, hth, htd]
  split_ifs <;>
    simp [dictGet?_set_ne _ _ _ _ hA, dictGet?_set_ne _ _ _ _ hB,
      dictGet?_set_ne _ _ _ _ hS, dictGet?_set_ne _ _ _ _ hSo]

theorem ratiosTable_get_other (d : Dict) (t : Table) (k : String)
    (hk : k ∉ ratioFieldNames) :
    dictGet? (ratiosTable d t) k = dictGet? d k := by
  have h1 : k ≠ "P/E Ratio" := fun he => hk (by rw [he]; decide)
  have h2 : k ≠ "P/B Ratio" := fun he => hk (by rw [he]; decide)
  have h3 : k ≠ "Alpha" := fun he => hk (by rw [he]; decide)
  have h4 : k ≠ "Beta" := fun he => hk (by rw [he]; decide)
  have h5 : k ≠ "Sharpe" := fun he => hk (by rw [he]; decide)
  have h6 : k ≠ "Sortino" := fun he => hk (by rw [he]; decide)
  unfold ratiosTable
  by_cases c1 : pyIn "P/E Ratio" t.text <;>
    by_cases c2 : (pyIn "Alpha" t.text && pyIn "Beta" t.text) = true <;>
      simp [c1, c2,
        foldl_dictGet?_eq _ _ (fun d r => peRow_get_other d r k h1 h2),
        foldl_dictGet?_eq _ _ (fun d r => statRow_get_other d r k h3 h4 h5 h6)]

theorem ratios_get_other (tables : List Table) (data : Dict) (k : String)
    (hk : k ∉ ratioFieldNames) :
    dictGet? (extract_ratios tables data) k = dictGet? data k := by
  unfold extract_ratios
  rw [foldl_dictGet?_eq _ _ (fun d t => ratiosTable_get_other d t k hk),
    dictGet?_setMany_not_mem _ _ _ (by rw [ratioInit_keys]; exact hk)]

theorem peRow_isSome (d : Dict) (r : Row) (k : String)
    (h : (dictGet? d k).isSome) : (dictGet? (peRow d r) k).isSome := by
  simp only [peRow]
  split_ifs <;> first
    | exact h
    | exact isSome_dictGet?_set _ _ _ _ h

theorem statRow_isSome (d : Dict) (r : Row) (k : String)
    (h : (dictGet? d k).isSome) : (dictGet? (statRow d r) k).isSome := by
  rcases hth : r.firstTh with _ | hc <;> rcases htd : r.firstTd with _ | vc <;>
    simp only [statRow, hth, htd]
  any_goals exact h
  split_ifs <;> first
    | exact h
    | exact isSome_dictGet?_set _ _ _ _ h

theorem ratiosTable_isSome (d : Dict) (t : Table) (k : String)
    (h : (dictGet? d k).isSome) : (dictGet? (ratiosTable d t) k).isSome := by
  unfold ratiosTable
  by_cases c1 : pyIn "P/E Ratio" t.text <;>
    by_cases c2 : (pyIn "Alpha" t.text && pyIn "Beta" t.text) = true <;>
      simp only [c1, c2, if_true, if_false] <;>
      first
        | exact h
        | exact foldl_isSome _ _ (fun d r => statRow_isSome d r k) _ _ h
        | exact foldl_isSome _ _ (fun d r => statRow_isSome d r k) _ _
            (foldl_isSome _ _ (fun d r => peRow_isSome d r k) _ _ h)
        | exact foldl_isSome _ _ (fun d r => peRow_isSome d r k) _ _ h

theorem ratios_isSome_mem (tables : List Table) (data : Dict) (k : String)
    (hk : k ∈ ratioFieldNames) :
    (dictGet? (extract_ratios tables data) k).isSome := by
  unfold extract_ratios
  exact foldl_isSome _ _ (fun d t => ratiosTable_isSome d t k) _ _
    (isSome_setMany_mem _ _ _ (by rw [ratioInit_keys]; exact hk))

theorem ratioInit_get (data : Dict) :
    dictGet? (setMany data ratioInitKVs) "P/E Ratio" = some "NA" ∧
    dictGet? (setMany data ratioInitKVs) "P/B Ratio" = some "NA" ∧
    dictGet? (setMany data ratioInitKVs) "Alpha" = some "NA" ∧
    dictGet? (setMany data ratioInitKVs) "Beta" = some "NA" ∧
    dictGet? (setMany data ratioInitKVs) "Sharpe" = some "NA" ∧
    dictGet? (setMany data ratioInitKVs) "Sortino" = some "NA" := by
  refine ⟨?_, ?_, ?_, ?_, ?_, ?_⟩ <;>
    simp [setMany, ratioInitKVs, dictGet?_set_same, dictGet?_set_ne]

theorem ratiosTable_nomatch (d : Dict) (t : Table)
    (h1 : pyIn "P/E Ratio" t.text = false)
    (h2 : (pyIn "Alpha" t.text && pyIn "Beta" t.text) = false) :
    ratiosTable d t = d := by
  simp [ratiosTable, h1, h2]

theorem ratios_fold_nomatch : ∀ (tables : List Table) (d : Dict),
    (∀ t ∈ tables, pyIn "P/E Ratio" t.text = false ∧
      (pyIn "Alpha" t.text && pyIn "Beta" t.text) = false) →
    tables.foldl ratiosTable d = d := by
  intro tables
  induction tables with
  | nil => intro d _; rfl
  | cons t ts ih =>
    intro d h
    rw [List.foldl_cons,
      ratiosTable_nomatch d t (h t (List.mem_cons_self _ _)).1 (h t (List.mem_cons_self _ _)).2]
    exact ih d (fun x hx => h x (List.mem_cons_of_mem _ hx))

theorem benchmark_na : ∀ (tables : List Table),
    (∀ t ∈ tables, pyIn "Fund benchmark" t.text = false) →
    extract_benchmark tables = "NA" := by
  intro tables
  induction tables with
  | nil => intro _; rfl
  | cons t ts ih =>
    intro h
    simp only [extract_benchmark, h t (List.mem_cons_self _ _)]
    exact ih (fun x hx => h x (List.mem_cons_of_mem _ hx))

theorem scanAumRows_digit : ∀ (rows : List Row) (fn : String) (idx : Nat) (v : String),
    scanAumRows fn idx rows = some v → hasDigit v = true := by
  intro rows
  induction rows with
  | nil => intro fn idx v h; simp [scanAumRows] at h
  | cons r rs ih =>
    intro fn idx v h
    by_cases ha : rowAccepts fn idx r
    · simp only [scanAumRows, ha, if_true, Option.some.injEq] at h
      rcases hc : r.cols with _ | ⟨c0, cs⟩
      · rw [rowAccepts, hc] at ha; simp at ha
      · rw [rowAccepts, hc] at ha
        simp only [Bool.and_eq_true] at ha
        rw [← h]
        unfold rowVal
        rw [hc]
        exact ha.2
    · simp only [scanAumRows, ha, if_false] at h
      exact ih fn idx v h

theorem aumTableMethod_nolit : ∀ (tables : List Table) (fn : String),
    (∀ t ∈ tables, fundSizeLit t.text = false) →
    aumTableMethod fn tables = none := by
  intro tables
  induction tables with
  | nil => intro fn _; rfl
  | cons t ts ih =>
    intro fn h
    simp only [aumTableMethod, h t (List.mem_cons_self _ _), if_false]
    exact ih fn (fun x hx => h x (List.mem_cons_of_mem _ hx))

theorem aumFallback_none : ∀ (texts : List String),
    (∀ s ∈ texts, s = "" ∨ pyIn "fund size" (normFallbackText s) = false) →
    aumFallback texts = none := by
  intro texts
  induction texts with
  | nil => intro _; rfl
  | cons t ts ih =>
    intro h
    have htail := fun x hx => h x (List.mem_cons_of_mem _ hx)
    rcases h t (List.mem_cons_self _ _) with he | hni
    · subst he; simp only [aumFallback, if_pos rfl]; exact ih htail
    · by_cases he2 : t = ""
      · subst he2; simp only [aumFallback, if_pos rfl]; exact ih htail
      · simp only [aumFallback, if_neg he2, hni, Bool.false_eq_true, if_false]
        exact ih htail

theorem aumTM_cons_nolit (t : Table) (ts : List Table) (fn : String)
    (h : fundSizeLit t.text = false) :
    aumTableMethod fn (t :: ts) = aumTableMethod fn ts := by
  simp [aumTableMethod, h]

theorem aumTM_cons_noheader (t : Table) (ts : List Table) (fn : String)
    (h1 : fundSizeLit t.text = true) (h2 : aumHeaderIdx t = none) :
    aumTableMethod fn (t :: ts) = aumTableMethod fn ts := by
  simp [aumTableMethod, h1, h2]

theorem aumTM_cons_scannone (t : Table) (ts : List Table) (fn : String) (idx : Nat)
    (h1 : fundSizeLit t.text = true) (h2 : aumHeaderIdx t = some idx)
    (h3 : scanAumRows fn idx t.rows = none) :
    aumTableMethod fn (t :: ts) = aumTableMethod fn ts := by
  simp [aumTableMethod, h1, h2, h3]

theorem aumTM_cons_scansome (t : Table) (ts : List Table) (fn : String) (idx : Nat)
    (v : String) (h1 : fundSizeLit t.text = true) (h2 : aumHeaderIdx t = some idx)
    (h3 : scanAumRows fn idx t.rows = some v) :
    aumTableMethod fn (t :: ts) = some v := by
  simp [aumTableMethod, h1, h2, h3]

theorem aumTableMethod_digit : ∀ (tables : List Table) (fn : String) (v : String),
    aumTableMethod fn tables = some v → hasDigit v = true := by
  intro tables
  induction tables with
  | nil => intro fn v h; simp [aumTableMethod] at h
  | cons t ts ih =>
    intro fn v h
    by_cases hl : fundSizeLit t.text
    · cases hidx : aumHeaderIdx t with
      | none => rw [aumTM_cons_noheader t ts fn hl hidx] at h; exact ih fn v h
      | some idx =>
        cases hscan : scanAumRows fn idx t.rows with
        | none => rw [aumTM_cons_scannone t ts fn idx hl hidx hscan] at h; exact ih fn v h
        | some w =>
          rw [aumTM_cons_scansome t ts fn idx w hl hidx hscan] at h
          simp only [Option.some.injEq] at h
          rw [← h]
          exact scanAumRows_digit t.rows fn idx w hscan
    · rw [aumTM_cons_nolit t ts fn (by simpa using hl)] at h
      exact ih fn v h

theorem aumTM_append_nolit : ∀ (pre : List Table) (fn : String) (rest : List Table),
    (∀ t ∈ pre, fundSizeLit t.text = false) →
    aumTableMethod fn (pre ++ rest) = aumTableMethod fn rest := by
  intro pre
  induction pre with
  | nil => intro fn rest _; rfl
  | cons t ts ih =>
    intro fn rest h
    rw [List.cons_append, aumTM_cons_nolit _ _ _ (h t (List.mem_cons_self _ _))]
    exact ih fn rest (fun x hx => h x (List.mem_cons_of_mem _ hx))

theorem scanAumRows_append_skip : ∀ (rows1 : List Row) (fn : String) (idx : Nat)
    (rest : List Row), (∀ r ∈ rows1, rowAccepts fn idx r = false) →
    scanAumRows fn idx (rows1 ++ rest) = scanAumRows fn idx rest := by
  intro rows1
  induction rows1 with
  | nil => intro fn idx rest _; rfl
  | cons r rs ih =>
    intro fn idx rest h
    rw [List.cons_append]
    simp only [scanAumRows, h r (List.mem_cons_self _ _), Bool.false_eq_true, if_false]
    exact ih fn idx rest (fun x hx => h x (List.mem_cons_of_mem _ hx))

theorem scanAumRows_cons_accept (r : Row) (rs : List Row) (fn : String) (idx : Nat)
    (h : rowAccepts fn idx r = true) :
    scanAumRows fn idx (r :: rs) = some (rowVal idx r) := by
  simp [scanAumRows, h]

theorem mgr_get_other (cards : List ManagerCard) (d : Dict) (k : String)
    (h : k ≠ "Fund Managers") :
    dictGet? (extract_managers cards d) k = dictGet? d k :=
  dictGet?_set_ne _ _ _ _ h

theorem mgr_get_self (cards : List ManagerCard) (d : Dict) :
    dictGet? (extract_managers cards d) "Fund Managers" = some (managerString cards) :=
  dictGet?_set_same _ _ _

theorem getD_afterType_fundName (drv : Driver) (doc : Doc) :
    dictGetD (dataAfterType drv doc) "Fund Name" "" = fundNameVal drv doc := by
  unfold dictGetD dataAfterType dataAfterName
  rw [dictGet?_set_ne _ _ _ _ (by decide), dictGet?_set_same]
  rfl

theorem get_afterBench_fundName (drv : Driver) (doc : Doc) :
    dictGet? (dataAfterBench drv doc) "Fund Name" = some (fundNameVal drv doc) := by
  unfold dataAfterBench dataAfterEl dataAfterAum dataAfterType dataAfterName
  rw [dictGet?_set_ne _ _ _ _ (by decide),
    el_get_other _ _ _ (by decide) (by decide),
    dictGet?_set_ne _ _ _ _ (by decide),
    dictGet?_set_ne _ _ _ _ (by decide),
    dictGet?_set_same]

theorem getD_afterBench_fundName (drv : Driver) (doc : Doc) :
    dictGetD (dataAfterBench drv doc) "Fund Name" "" = fundNameVal drv doc := by
  unfold dictGetD
  rw [get_afterBench_fundName]
  rfl

theorem parse_get_fundName (drv : Driver) (doc : Doc) :
    dictGet? (parse_data drv doc) "Fund Name" = some (fundNameVal drv doc) := by
  unfold parse_data dataAfterRatios dataAfterRR
  rw [mgr_get_other _ _ _ (by decide),
    ratios_get_other _ _ _ (by decide),
    rr_get_other _ _ _ (by decide),
    get_afterBench_fundName]

theorem parse_get_fundType (drv : Driver) (doc : Doc) :
    dictGet? (parse_data drv doc) "Fund Type" = some (fundTypeVal doc) := by
  unfold parse_data dataAfterRatios dataAfterRR dataAfterBench dataAfterEl
    dataAfterAum dataAfterType
  rw [mgr_get_other _ _ _ (by decide),
    ratios_get_other _ _ _ (by decide),
    rr_get_other _ _ _ (by decide),
    dictGet?_set_ne _ _ _ _ (by decide),
    el_get_other _ _ _ (by decide) (by decide),
    dictGet?_set_ne _ _ _ _ (by decide),
    dictGet?_set_same]

theorem parse_get_aum (drv : Driver) (doc : Doc) :
    dictGet? (parse_data drv doc) "AUM" =
      some (extract_aum doc.tables (fundNameVal drv doc) drv.fundSizeTexts) := by
  unfold parse_data dataAfterRatios dataAfterRR dataAfterBench dataAfterEl dataAfterAum
  rw [mgr_get_other _ _ _ (by decide),
    ratios_get_other _ _ _ (by decide),
    rr_get_other _ _ _ (by decide),
    dictGet?_set_ne _ _ _ _ (by decide),
    el_get_other _ _ _ (by decide) (by decide),
    dictGet?_set_same, getD_afterType_fundName]

theorem parse_get_exp (drv : Driver) (doc : Doc) :
    dictGet? (parse_data drv doc) "Expense Ratio" = some (elPair doc.headings).1 := by
  unfold parse_data dataAfterRatios dataAfterRR dataAfterBench dataAfterEl
  rw [mgr_get_other _ _ _ (by decide),
    ratios_get_other _ _ _ (by decide),
    rr_get_other _ _ _ (by decide),
    dictGet?_set_ne _ _ _ _ (by decide),
    el_get_exp]

theorem parse_get_exit (drv : Driver) (doc : Doc) :
    dictGet? (parse_data drv doc) "Exit Load" = some (elPair doc.headings).2 := by
  unfold parse_data dataAfterRatios dataAfterRR dataAfterBench dataAfterEl
  rw [mgr_get_other _ _ _ (by decide),
    ratios_get_other _ _ _ (by decide),
    rr_get_other _ _ _ (by decide),
    dictGet?_set_ne _ _ _ _ (by decide),
    el_get_exit]

theorem parse_get_benchmark (drv : Driver) (doc : Doc) :
    dictGet? (parse_data drv doc) "Benchmark" = some (extract_benchmark doc.tables) := by
  unfold parse_data dataAfterRatios dataAfterRR dataAfterBench
  rw [mgr_get_other _ _ _ (by decide),
    ratios_get_other _ _ _ (by decide),
    rr_get_other _ _ _ (by decide),
    dictGet?_set_same]

theorem parse_get_rr_fields (drv : Driver) (doc : Doc) :
    dictGet? (parse_data drv doc) "1Y Fund Return" =
      some (dictGetD (rrState doc.tables (fundNameVal drv doc)).fr "1Y" "NA") ∧
    dictGet? (parse_data drv doc) "1Y Category Avg" =
      some (dictGetD (rrState doc.tables (fundNameVal drv doc)).ca "1Y" "NA") ∧
    dictGet? (parse_data drv doc) "1Y Rank" =
      some (dictGetD (rrState doc.tables (fundNameVal drv doc)).rk "1Y" "NA") ∧
    dictGet? (parse_data drv doc) "3Y Fund Return" =
      some (dictGetD (rrState doc.tables (fundNameVal drv doc)).fr "3Y" "NA") ∧
    dictGet? (parse_data drv doc) "3Y Category Avg" =
      some (dictGetD (rrState doc.tables (fundNameVal drv doc)).ca "3Y" "NA") ∧
    dictGet? (parse_data drv doc) "3Y Rank" =
      some (dictGetD (rrState doc.tables (fundNameVal drv doc)).rk "3Y" "NA") ∧
    dictGet? (parse_data drv doc) "5Y Fund Return" =
      some (dictGetD (rrState doc.tables (fundNameVal drv doc)).fr "5Y" "NA") ∧
    dictGet? (parse_data drv doc) "5Y Category Avg" =
      some (dictGetD (rrState doc.tables (fundNameVal drv doc)).ca "5Y" "NA") ∧
    dictGet? (parse_data drv doc) "5Y Rank" =
      some (dictGetD (rrState doc.tables (fundNameVal drv doc)).rk "5Y" "NA") ∧
    dictGet? (parse_data drv doc) "All Fund Return" =
      some (dictGetD (rrState doc.tables (fundNameVal drv doc)).fr "All" "NA") ∧
    dictGet? (parse_data drv doc) "All Category Avg" =
      some (dictGetD (rrState doc.tables (fundNameVal drv doc)).ca "All" "NA") ∧
    dictGet? (parse_data drv doc) "All Rank" =
      some (dictGetD (rrState doc.tables (fundNameVal drv doc)).rk "All" "NA") := by
  refine ⟨?_, ?_, ?_, ?_, ?_, ?_, ?_, ?_, ?_, ?_, ?_, ?_⟩ <;>
    · unfold parse_data dataAfterRatios dataAfterRR
      rw [mgr_get_other _ _ _ (by decide), ratios_get_other _ _ _ (by decide)]
      first
      | rw [(rr_get_fields _ _).1, getD_afterBench_fundName]
      | rw [(rr_get_fields _ _).2.1, getD_afterBench_fundName]
      | rw [(rr_get_fields _ _).2.2.1, getD_afterBench_fundName]
      | rw [(rr_get_fields _ _).2.2.2.1, getD_afterBench_fundName]
      | rw [(rr_get_fields _ _).2.2.2.2.1, getD_afterBench_fundName]
      | rw [(rr_get_fields _ _).2.2.2.2.2.1, getD_afterBench_fundName]
      | rw [(rr_get_fields _ _).2.2.2.2.2.2.1, getD_afterBench_fundName]
      | rw [(rr_get_fields _ _).2.2.2.2.2.2.2.1, getD_afterBench_fundName]
      | rw [(rr_get_fields _ _).2.2.2.2.2.2.2.2.1, getD_afterBench_fundName]
      | rw [(rr_get_fields _ _).2.2.2.2.2.2.2.2.2.1, getD_afterBench_fundName]
      | rw [(rr_get_fields _ _).2.2.2.2.2.2.2.2.2.2.1, getD_afterBench_fundName]
      | rw [(rr_get_fields _ _).2.2.2.2.2.2.2.2.2.2.2, getD_afterBench_fundName]

theorem parse_ratio_isSome (drv : Driver) (doc : Doc) (k : String)
    (hk : k ∈ ratioFieldNames) :
    (dictGet? (parse_data drv doc) k).isSome := by
  unfold parse_data dataAfterRatios
  have hne : k ≠ "Fund Managers" := by
    intro he; rw [he] at hk; exact absurd hk (by decide)
  rw [mgr_get_other _ _ _ hne]
  exact ratios_isSome_mem _ _ _ hk

theorem parse_ratio_default (drv : Driver) (doc : Doc)
    (hmatch : ∀ t ∈ doc.tables, pyIn "P/E Ratio" t.text = false ∧
      (pyIn "Alpha" t.text && pyIn "Beta" t.text) = false) :
    dictGet? (parse_data drv doc) "P/E Ratio" = some "NA" ∧
    dictGet? (parse_data drv doc) "P/B Ratio" = some "NA" ∧
    dictGet? (parse_data drv doc) "Alpha" = some "NA" ∧
    dictGet? (parse_data drv doc) "Beta" = some "NA" ∧
    dictGet? (parse_data drv doc) "Sharpe" = some "NA" ∧
    dictGet? (parse_data drv doc) "Sortino" = some "NA" := by
  unfold parse_data dataAfterRatios
  have hfold : extract_ratios doc.tables (dataAfterRR drv doc) =
      setMany (dataAfterRR drv doc) ratioInitKVs := by
    unfold extract_ratios
    exact ratios_fold_nomatch doc.tables _ hmatch
  refine ⟨?_, ?_, ?_, ?_, ?_, ?_⟩ <;>
    rw [mgr_get_other _ _ _ (by decide), hfold]
  · exact (ratioInit_get _).1
  · exact (ratioInit_get _).2.1
  · exact (ratioInit_get _).2.2.1
  · exact (ratioInit_get _).2.2.2.1
  · exact (ratioInit_get _).2.2.2.2.1
  · exact (ratioInit_get _).2.2.2.2.2

theorem parse_get_managers (drv : Driver) (doc : Doc) :
    dictGet? (parse_data drv doc) "Fund Managers" =
      some (managerString doc.managerCards) :=
  mgr_get_self _ _

theorem scrape_get_url (drv : Driver) (doc : Doc) (url : String) :
    dictGet? (scrape_url drv doc url) "URL" = some url :=
  dictGet?_set_same _ _ _

theorem scrape_get_other (drv : Driver) (doc : Doc) (url : String) (k : String)
    (h : k ≠ "URL") :
    dictGet? (scrape_url drv doc url) k = dictGet? (parse_data drv doc) k :=
  dictGet?_set_ne _ _ _ _ h

theorem parse_rr_isSome (drv : Driver) (doc : Doc) (k : String)
    (hk : k ∈ rrFieldNames) :
    (dictGet? (parse_data drv doc) k).isSome := by
  have h1 : k ≠ "Fund Managers" := by
    intro he; rw [he] at hk; exact absurd hk (by decide)
  have h2 : k ∉ ratioFieldNames := by
    intro hm; fin_cases hk <;> exact absurd hm (by decide)
  unfold parse_data dataAfterRatios
  rw [mgr_get_other _ _ _ h1, ratios_get_other _ _ _ h2]
  exact rr_isSome_mem _ _ _ hk

theorem pyIn_right_empty (s : String) (h : s ≠ "") : pyIn s "" = false := by
  rcases s with ⟨l⟩
  cases l with
  | nil => exact absurd rfl h
  | cons c cs =>
    show subList (c :: cs) [] = false
    simp [subList, List.tails, List.isPrefixOf]

theorem elE_error : ∀ (hs : List HeadingE) (d : Dict),
    (∃ h ∈ hs, h.textE = Except.error ()) →
    hs.foldlM elDictStepE d = Except.error () := by
  intro hs
  induction hs with
  | nil =>
    intro d h
    rcases h with ⟨x, hx, _⟩
    simp at hx
  | cons h t ih =>
    intro d hex
    rcases hex with ⟨x, hx, he⟩
    rcases List.mem_cons.mp hx with rfl | hx2
    · rw [List.foldlM_cons]
      rw [show elDictStepE d x = Except.error () from by
        unfold elDictStepE
        rw [he]
        rfl]
      rfl
    · rw [List.foldlM_cons]
      cases hstep : elDictStepE d h with
      | error e => rfl
      | ok d2 => exact ih d2 ⟨x, hx2, he⟩

theorem parse_dataE_error (drv : Driver) (doc : DocE)
    (h : ∃ hh ∈ doc.headingsE, hh.textE = Except.error ()) :
    parse_dataE drv doc = Except.error () := by
  have hel : ∀ d : Dict, List.foldlM elDictStepE d doc.headingsE = Except.error () :=
    fun d => elE_error doc.headingsE d h
  unfold parse_dataE extract_expense_and_loadE
  simp only [hel]
  rfl

theorem scrape_urlE_of_error (drv : Driver) (doc : DocE) (url : String)
    (h : ∃ hh ∈ doc.headingsE, hh.textE = Except.error ()) :
    scrape_urlE drv doc url = none := by
  unfold scrape_urlE
  rw [parse_dataE_error drv doc h]

/-- C1 counterexample: on a document whose single expense and exit-load
heading block raises when its text is read, the exception is NOT caught at
the extractor boundary: _parse_data propagates it and scrape_url returns
None, so no Record is produced at all, contradicting the claim that the
remaining extractors still run and record assembly still yields a Record. -/
theorem C1_counterexample_no_record_on_extractor_exception :
    parse_dataE emptyDriver poisonedDoc = Except.error () ∧
    scrape_urlE emptyDriver poisonedDoc "u" = none := by
  constructor
  · exact parse_dataE_error _ _
      ⟨⟨Except.error (), none, none⟩, by simp [poisonedDoc], rfl⟩
  · exact scrape_urlE_of_error _ _ _
      ⟨⟨Except.error (), none, none⟩, by simp [poisonedDoc], rfl⟩

/-- C1 amended: an exception raised mid-parse inside the expense and
exit-load extractor is not caught at that extractor boundary; it
propagates out of _parse_data to the per-item handler in scrape_url, which
returns None, so the remaining extractors do not run and no Record is
produced for that document. Only the fund-name wait and the AUM strategies
have handlers of their own. -/
theorem C1_amended_extractor_exception_aborts_item (drv : Driver) (doc : DocE)
    (url : String) (h : ∃ hh ∈ doc.headingsE, hh.textE = Except.error ()) :
    scrape_urlE drv doc url = none :=
  scrape_urlE_of_error drv doc url h

/-- C1 witness: the amended theorem evaluated on the poisoned document. -/
theorem C1_amended_witness :
    (∃ hh ∈ poisonedDoc.headingsE, hh.textE = Except.error ()) ∧
    scrape_urlE emptyDriver poisonedDoc "x" = none :=
  ⟨⟨⟨Except.error (), none, none⟩, by simp [poisonedDoc], rfl⟩,
   C1_amended_extractor_exception_aborts_item emptyDriver poisonedDoc "x"
     ⟨⟨Except.error (), none, none⟩, by simp [poisonedDoc], rfl⟩⟩

/-- C3 counterexample: the AUM table strategy does not return the exact
cell text unmodified, and not every matching row is returned: on a table
whose first name-matched digit-bearing row holds the cell text with
surrounding whitespace, the strategy returns the STRIPPED text of that
FIRST row, not the raw cell text and not the second matching row's value. -/
theorem C3_counterexample_trimmed_first_row :
    extract_aum [cexAumTable] "My Alpha Fund" [] = "₹5 Cr" ∧
    (" ₹5 Cr " : String) ≠ "₹5 Cr" ∧
    ("₹7 Cr" : String) ≠ "₹5 Cr" := by
  decide

/-- C3 amended: for the first table containing the literal fund-size label
in which a header column is located, the strategy returns the
whitespace-stripped text of the header-aligned cell of the FIRST row that
name-matches and whose aligned cell is in range and contains a digit. -/
theorem C3_amended_aum_returns_trimmed_first_accepted (pre : List Table) (t : Table)
    (post : List Table) (fn : String) (fb : List String) (rows1 : List Row) (r : Row)
    (rows2 : List Row) (idx : Nat)
    (hpre : ∀ t2 ∈ pre, fundSizeLit t2.text = false)
    (hlit : fundSizeLit t.text = true)
    (hidx : aumHeaderIdx t = some idx)
    (hrows : t.rows = rows1 ++ r :: rows2)
    (hskip : ∀ r2 ∈ rows1, rowAccepts fn idx r2 = false)
    (hacc : rowAccepts fn idx r = true) :
    extract_aum (pre ++ t :: post) fn fb = rowVal idx r := by
  unfold extract_aum
  rw [aumTM_append_nolit pre fn _ hpre,
    aumTM_cons_scansome t post fn idx (rowVal idx r) hlit hidx
      (by rw [hrows, scanAumRows_append_skip _ _ _ _ hskip,
        scanAumRows_cons_accept _ _ _ _ hacc])]

/-- C3 witness: the amended theorem evaluated on the concrete table. -/
theorem C3_amended_witness :
    (∀ t2 ∈ ([] : List Table), fundSizeLit t2.text = false) ∧
    fundSizeLit cexAumTable.text = true ∧
    aumHeaderIdx cexAumTable = some 1 ∧
    cexAumTable.rows = [⟨[thCell "Scheme", thCell "Fund Size"]⟩] ++
      (⟨[tdCell "My Alpha Fund", tdCell " ₹5 Cr "]⟩ : Row) ::
        [⟨[tdCell "My Alpha Fund Two", tdCell "₹7 Cr"]⟩] ∧
    (∀ r2 ∈ [(⟨[thCell "Scheme", thCell "Fund Size"]⟩ : Row)],
      rowAccepts "My Alpha Fund" 1 r2 = false) ∧
    rowAccepts "My Alpha Fund" 1 ⟨[tdCell "My Alpha Fund", tdCell " ₹5 Cr "]⟩ = true ∧
    extract_aum [cexAumTable] "My Alpha Fund" [] =
      rowVal 1 ⟨[tdCell "My Alpha Fund", tdCell " ₹5 Cr "]⟩ := by
  refine ⟨by simp, by decide, by decide, by decide, by decide, by decide, ?_⟩
  exact C3_amended_aum_returns_trimmed_first_accepted [] cexAumTable [] "My Alpha Fund"
    [] [⟨[thCell "Scheme", thCell "Fund Size"]⟩]
    ⟨[tdCell "My Alpha Fund", tdCell " ₹5 Cr "]⟩
    [⟨[tdCell "My Alpha Fund Two", tdCell "₹7 Cr"]⟩] 1
    (by simp) (by decide) (by decide) (by decide) (by decide) (by decide)

/-- C4 counterexample: the code does not consider tables case-insensitively
and does not restrict the scan to the first such table. A table whose text
holds only the lower-case label is skipped by the code but selected first
by the spec-worded strategy, whose result then differs from the code on
both document variants. -/
theorem C4_counterexample_case_and_first_table :
    extract_aum [cexLowerTextTable, cexProperTable] "Bluechip Alpha" [] = "₹9 Cr" ∧
    specAumTableMethod [cexLowerTextTable, cexProperTable] "Bluechip Alpha" = none ∧
    extract_aum [cexLowerHeaderTable] "Bluechip Alpha" [] = "NA" ∧
    specAumTableMethod [cexLowerHeaderTable] "Bluechip Alpha" = some "₹3 Cr" := by
  decide

/-- C4 amended: the table strategy considers exactly the tables whose text
contains the literal Fund Size or Fund size (other casings are not
considered), and it scans the considered tables in document order,
returning from the first that yields an accepted value; a considered table
with no located header column or no accepted row is passed over and the
scan continues with later tables. -/
theorem C4_amended_literal_label_and_continue :
    (∀ (t : Table) (ts : List Table) (fn : String), fundSizeLit t.text = false →
      aumTableMethod fn (t :: ts) = aumTableMethod fn ts) ∧
    (∀ (t : Table) (ts : List Table) (fn : String), fundSizeLit t.text = true →
      aumHeaderIdx t = none → aumTableMethod fn (t :: ts) = aumTableMethod fn ts) ∧
    (∀ (t : Table) (ts : List Table) (fn : String) (idx : Nat),
      fundSizeLit t.text = true → aumHeaderIdx t = some idx →
      scanAumRows fn idx t.rows = none →
      aumTableMethod fn (t :: ts) = aumTableMethod fn ts) ∧
    (∀ (t : Table) (ts : List Table) (fn : String) (idx : Nat) (v : String),
      fundSizeLit t.text = true → aumHeaderIdx t = some idx →
      scanAumRows fn idx t.rows = some v → aumTableMethod fn (t :: ts) = some v) :=
  ⟨aumTM_cons_nolit, aumTM_cons_noheader, aumTM_cons_scannone, aumTM_cons_scansome⟩

/-- C4 witness: each clause of the amended theorem evaluated concretely. -/
theorem C4_amended_witness :
    (fundSizeLit cexLowerTextTable.text = false ∧
      aumTableMethod "X" [cexLowerTextTable] = aumTableMethod "X" []) ∧
    (fundSizeLit cexNoHeaderTable.text = true ∧ aumHeaderIdx cexNoHeaderTable = none ∧
      aumTableMethod "X" [cexNoHeaderTable] = aumTableMethod "X" []) ∧
    (fundSizeLit cexProperTable.text = true ∧ aumHeaderIdx cexProperTable = some 1 ∧
      scanAumRows "Zzz" 1 cexProperTable.rows = none ∧
      aumTableMethod "Zzz" [cexProperTable] = aumTableMethod "Zzz" []) ∧
    (scanAumRows "Bluechip Alpha" 1 cexProperTable.rows = some "₹9 Cr" ∧
      aumTableMethod "Bluechip Alpha" [cexProperTable] = some "₹9 Cr") := by
  refine ⟨⟨by decide, ?_⟩, ⟨by decide, by decide, ?_⟩,
    ⟨by decide, by decide, by decide, ?_⟩, ⟨by decide, ?_⟩⟩
  · exact C4_amended_literal_label_and_continue.1 _ _ _ (by decide)
  · exact C4_amended_literal_label_and_continue.2.1 _ _ _ (by decide) (by decide)
  · exact C4_amended_literal_label_and_continue.2.2.1 cexProperTable [] "Zzz" 1
      (by decide) (by decide) (by decide)
  · exact C4_amended_literal_label_and_continue.2.2.2 cexProperTable [] "Bluechip Alpha"
      1 "₹9 Cr" (by decide) (by decide) (by decide)

/-- C5 counterexample: when the text after the first colon contains a
further colon, the extracted value is the segment between the first and
second colons, not the entire substring after the first colon that the
claim describes. -/
theorem C5_counterexample_second_colon :
    dictGet? (extract_expense_and_load
      [⟨"Expense Ratio: 0.5% : includes fees", none, none⟩] []) "Expense Ratio" =
      some "0.5%" ∧
    specExpenseVal "Expense Ratio: 0.5% : includes fees" = "0.5% : includes fees" ∧
    ("0.5%" : String) ≠ "0.5% : includes fees" := by
  decide

/-- C5 amended: for a heading block containing Expense Ratio and a colon,
the stored value is the split segment BETWEEN the first and second colons
(the whole remainder only when no second colon exists), boilerplate
removed and trimmed; the last matching block in document order wins. -/
theorem C5_amended_expense_between_colons (l1 : List Heading) (h : Heading)
    (l2 : List Heading) (data : Dict) (hm : expMatch h = true)
    (hl : ∀ x ∈ l2, expMatch x = false) :
    dictGet? (extract_expense_and_load (l1 ++ h :: l2) data) "Expense Ratio" =
      some (codeExpenseVal h.text) := by
  rw [el_get_exp,
    show (elPair (l1 ++ h :: l2)).1 = codeExpenseVal h.text from by
      unfold elPair
      exact el_fst_last l1 h l2 ("NA", "NA") hm hl]

/-- C5 witness: the amended theorem evaluated on the boilerplate heading. -/
theorem C5_amended_witness :
    expMatch expGstHeading = true ∧
    (∀ x ∈ ([] : List Heading), expMatch x = false) ∧
    codeExpenseVal expGstHeading.text = "0.75%" ∧
    dictGet? (extract_expense_and_load [expGstHeading] []) "Expense Ratio" =
      some (codeExpenseVal expGstHeading.text) := by
  refine ⟨by decide, by simp, by decide, ?_⟩
  exact C5_amended_expense_between_colons [] expGstHeading [] [] (by decide) (by simp)

/-- C7: the AUM table strategy never returns a digit-free value (a
name-matched row whose header-aligned cell has no digit is rejected), and
whenever the table strategy yields nothing, the extractor returns the
text-scan fallback result, or NA when the fallback fails too. -/
theorem C7_digitless_rejected_fallback (tables : List Table) (fn : String)
    (fb : List String) :
    (∀ v, aumTableMethod fn tables = some v → hasDigit v = true) ∧
    (aumTableMethod fn tables = none →
      (∀ w, aumFallback fb = some w → extract_aum tables fn fb = w) ∧
      (aumFallback fb = none → extract_aum tables fn fb = "NA")) := by
  refine ⟨fun v hv => aumTableMethod_digit tables fn v hv, fun hnone => ⟨?_, ?_⟩⟩
  · intro w hw
    unfold extract_aum
    rw [hnone, hw]
  · intro hf
    unfold extract_aum
    rw [hnone, hf]

/-- C7 witness: a matched digit-free row is rejected and the fallback or
the NA default decides the result. -/
theorem C7_witness :
    aumTableMethod "Bluechip Alpha" [digitlessTable] = none ∧
    aumFallback ["Fund size ₹1,234Cr"] = some "1,234" ∧
    extract_aum [digitlessTable] "Bluechip Alpha" ["Fund size ₹1,234Cr"] = "1,234" ∧
    aumFallback ([] : List String) = none ∧
    extract_aum [digitlessTable] "Bluechip Alpha" [] = "NA" := by
  refine ⟨by decide, by decide, ?_, by decide, ?_⟩
  · exact ((C7_digitless_rejected_fallback [digitlessTable] "Bluechip Alpha"
      ["Fund size ₹1,234Cr"]).2 (by decide)).1 "1,234" (by decide)
  · exact ((C7_digitless_rejected_fallback [digitlessTable] "Bluechip Alpha"
      []).2 (by decide)).2 (by decide)

/-- C8: one scrape call, with the scraper state (its only attribute, the
driver handle) threaded explicitly, leaves that state unchanged, and a
second run on the identical parsed document yields the identical record:
no mutable state carried by the scraper across calls affects any field. -/
theorem C8_rerun_identical (drv : Driver) (doc : Doc) (url : String) :
    (scrape_run drv doc url).2 = drv ∧
    (scrape_run (scrape_run drv doc url).2 doc url).1 = (scrape_run drv doc url).1 :=
  ⟨rfl, rfl⟩

/-- C10: a heading block whose h3 text mentions Exit load but which has no
paragraph child stores the sentinel NA; when every such block lacks the
paragraph, the Exit Load field is present and equals NA, and the extractor
is a total function (it cannot raise). -/
theorem C10_exit_load_without_paragraph (hs : List Heading) (data : Dict)
    (h : ∀ x ∈ hs, exitMatch x = true → x.p = none) :
    dictGet? (extract_expense_and_load hs data) "Exit Load" = some "NA" := by
  rw [el_get_exit,
    show (elPair hs).2 = "NA" from by
      unfold elPair
      exact el_snd_na hs ("NA", "NA") rfl h]

/-- C2: every Record carries the full canonical schema (the value type is
a string, so no field can hold None); each field whose source data is
structurally absent holds exactly the NA sentinel, except the manager
roster, whose empty representation is the empty string. -/
theorem C2_record_schema_and_sentinels (drv : Driver) (doc : Doc) (url : String) :
    (∀ f ∈ canonicalFields, (dictGet? (scrape_url drv doc url) f).isSome) ∧
    (drv.waitFundName = none → doc.schemeNameH1 = none →
      dictGet? (scrape_url drv doc url) "Fund Name" = some "NA") ∧
    (doc.pills.length ≤ 1 →
      dictGet? (scrape_url drv doc url) "Fund Type" = some "NA") ∧
    ((∀ t ∈ doc.tables, fundSizeLit t.text = false) →
      (∀ s ∈ drv.fundSizeTexts, s = "" ∨ pyIn "fund size" (normFallbackText s) = false) →
      dictGet? (scrape_url drv doc url) "AUM" = some "NA") ∧
    ((∀ h ∈ doc.headings, expMatch h = false) →
      dictGet? (scrape_url drv doc url) "Expense Ratio" = some "NA") ∧
    ((∀ h ∈ doc.headings, exitMatch h = true → h.p = none) →
      dictGet? (scrape_url drv doc url) "Exit Load" = some "NA") ∧
    ((∀ t ∈ doc.tables, pyIn "Fund benchmark" t.text = false) →
      dictGet? (scrape_url drv doc url) "Benchmark" = some "NA") ∧
    ((∀ t ∈ doc.tables,
        (pyIn "Rank with in category" t.text || pyIn "Category average" t.text) = false) →
      ∀ f ∈ rrFieldNames, dictGet? (scrape_url drv doc url) f = some "NA") ∧
    ((∀ t ∈ doc.tables, pyIn "P/E Ratio" t.text = false ∧
        (pyIn "Alpha" t.text && pyIn "Beta" t.text) = false) →
      ∀ f ∈ ratioFieldNames, dictGet? (scrape_url drv doc url) f = some "NA") ∧
    (doc.managerCards = [] →
      dictGet? (scrape_url drv doc url) "Fund Managers" = some "") ∧
    dictGet? (scrape_url drv doc url) "URL" = some url := by
  refine ⟨?_, ?_, ?_, ?_, ?_, ?_, ?_, ?_, ?_, ?_, scrape_get_url drv doc url⟩
  · intro f hf
    fin_cases hf <;>
      first
      | (rw [scrape_get_url]; rfl)
      | (rw [scrape_get_other _ _ _ _ (by decide), parse_get_fundName]; rfl)
      | (rw [scrape_get_other _ _ _ _ (by decide), parse_get_fundType]; rfl)
      | (rw [scrape_get_other _ _ _ _ (by decide), parse_get_aum]; rfl)
      | (rw [scrape_get_other _ _ _ _ (by decide), parse_get_exp]; rfl)
      | (rw [scrape_get_other _ _ _ _ (by decide), parse_get_exit]; rfl)
      | (rw [scrape_get_other _ _ _ _ (by decide), parse_get_benchmark]; rfl)
      | (rw [scrape_get_other _ _ _ _ (by decide), parse_get_managers]; rfl)
      | (rw [scrape_get_other _ _ _ _ (by decide)];
         exact parse_rr_isSome drv doc _ (by decide))
      | (rw [scrape_get_other _ _ _ _ (by decide)];
         exact parse_ratio_isSome drv doc _ (by decide))
  · intro h1 h2
    rw [scrape_get_other _ _ _ _ (by decide), parse_get_fundName]
    unfold fundNameVal
    rw [h1, h2]
  · intro h
    rw [scrape_get_other _ _ _ _ (by decide), parse_get_fundType]
    unfold fundTypeVal
    rw [if_neg (by omega)]
  · intro h1 h2
    rw [scrape_get_other _ _ _ _ (by decide), parse_get_aum,
      show extract_aum doc.tables (fundNameVal drv doc) drv.fundSizeTexts = "NA" from by
        unfold extract_aum
        rw [aumTableMethod_nolit _ _ h1, aumFallback_none _ h2]]
  · intro h
    rw [scrape_get_other _ _ _ _ (by decide), parse_get_exp,
      show (elPair doc.headings).1 = "NA" from by
        unfold elPair
        exact el_fst_invariant _ _ h]
  · intro h
    rw [scrape_get_other _ _ _ _ (by decide), parse_get_exit,
      show (elPair doc.headings).2 = "NA" from by
        unfold elPair
        exact el_snd_na _ _ rfl h]
  · intro h
    rw [scrape_get_other _ _ _ _ (by decide), parse_get_benchmark, benchmark_na _ h]
  · intro h f hf
    have hst : rrState doc.tables (fundNameVal drv doc) = ⟨[], [], []⟩ :=
      rrState_empty _ _ (findReturnsTable_none _ h)
    fin_cases hf <;>
      first
      | (rw [scrape_get_other _ _ _ _ (by decide),
          (parse_get_rr_fields drv doc).1, hst]; rfl)
      | (rw [scrape_get_other _ _ _ _ (by decide),
          (parse_get_rr_fields drv doc).2.1, hst]; rfl)
      | (rw [scrape_get_other _ _ _ _ (by decide),
          (parse_get_rr_fields drv doc).2.2.1, hst]; rfl)
      | (rw [scrape_get_other _ _ _ _ (by decide),
          (parse_get_rr_fields drv doc).2.2.2.1, hst]; rfl)
      | (rw [scrape_get_other _ _ _ _ (by decide),
          (parse_get_rr_fields drv doc).2.2.2.2.1, hst]; rfl)
      | (rw [scrape_get_other _ _ _ _ (by decide),
          (parse_get_rr_fields drv doc).2.2.2.2.2.1, hst]; rfl)
      | (rw [scrape_get_other _ _ _ _ (by decide),
          (parse_get_rr_fields drv doc).2.2.2.2.2.2.1, hst]; rfl)
      | (rw [scrape_get_other _ _ _ _ (by decide),
          (parse_get_rr_fields drv doc).2.2.2.2.2.2.2.1, hst]; rfl)
      | (rw [scrape_get_other _ _ _ _ (by decide),
          (parse_get_rr_fields drv doc).2.2.2.2.2.2.2.2.1, hst]; rfl)
      | (rw [scrape_get_other _ _ _ _ (by decide),
          (parse_get_rr_fields drv doc).2.2.2.2.2.2.2.2.2.1, hst]; rfl)
      | (rw [scrape_get_other _ _ _ _ (by decide),
          (parse_get_rr_fields drv doc).2.2.2.2.2.2.2.2.2.2.1, hst]; rfl)
      | (rw [scrape_get_other _ _ _ _ (by decide),
          (parse_get_rr_fields drv doc).2.2.2.2.2.2.2.2.2.2.2, hst]; rfl)
  · intro h f hf
    have h6 := parse_ratio_default drv doc h
    fin_cases hf <;>
      first
      | (rw [scrape_get_other _ _ _ _ (by decide)]; exact h6.1)
      | (rw [scrape_get_other _ _ _ _ (by decide)]; exact h6.2.1)
      | (rw [scrape_get_other _ _ _ _ (by decide)]; exact h6.2.2.1)
      | (rw [scrape_get_other _ _ _ _ (by decide)]; exact h6.2.2.2.1)
      | (rw [scrape_get_other _ _ _ _ (by decide)]; exact h6.2.2.2.2.1)
      | (rw [scrape_get_other _ _ _ _ (by decide)]; exact h6.2.2.2.2.2)
  · intro h
    rw [scrape_get_other _ _ _ _ (by decide), parse_get_managers, h]
    decide

/-- C2 witness: the schema theorem evaluated on the empty document. -/
theorem C2_witness :
    emptyDriver.waitFundName = none ∧ emptyDoc.schemeNameH1 = none ∧
    (∀ t ∈ emptyDoc.tables, fundSizeLit t.text = false) ∧
    dictGet? (scrape_url emptyDriver emptyDoc "u") "Fund Name" = some "NA" ∧
    dictGet? (scrape_url emptyDriver emptyDoc "u") "AUM" = some "NA" ∧
    dictGet? (scrape_url emptyDriver emptyDoc "u") "Exit Load" = some "NA" ∧
    dictGet? (scrape_url emptyDriver emptyDoc "u") "3Y Rank" = some "NA" ∧
    dictGet? (scrape_url emptyDriver emptyDoc "u") "Sharpe" = some "NA" ∧
    dictGet? (scrape_url emptyDriver emptyDoc "u") "Fund Managers" = some "" ∧
    dictGet? (scrape_url emptyDriver emptyDoc "u") "URL" = some "u" ∧
    (dictGet? (scrape_url emptyDriver emptyDoc "u") "Benchmark").isSome := by
  have h := C2_record_schema_and_sentinels emptyDriver emptyDoc "u"
  exact ⟨rfl, rfl, by simp [emptyDoc],
    h.2.1 rfl rfl,
    h.2.2.2.1 (by simp [emptyDoc]) (by simp [emptyDriver]),
    h.2.2.2.2.2.1 (by simp [emptyDoc]),
    h.2.2.2.2.2.2.2.1 (by simp [emptyDoc]) "3Y Rank" (by decide),
    h.2.2.2.2.2.2.2.2.1 (by simp [emptyDoc]) "Sharpe" (by decide),
    h.2.2.2.2.2.2.2.2.2.1 rfl,
    h.2.2.2.2.2.2.2.2.2.2,
    h.1 "Benchmark" (by decide)⟩

/-- C6: on a returns table with header row 1Y, 3Y, 5Y, All and the three
canonical row labels, the extractor emits exactly the twelve canonical
fields holding the aligned cell values; an absent table yields the twelve
fields all NA; a period present in the table but outside the canonical
four is dropped while canonical periods missing from the table default to
NA; and no key outside the twelve is ever written. -/
theorem C6_returns_rank_twelve_fields :
    (∀ (fundName txt a1 a3 a5 aA b1 b3 b5 bA r1 r3 r5 rA : String) (data : Dict),
      dictGet? data "Fund Name" = some fundName →
      pyIn fundName "Category average" = false →
      pyIn fundName "Rank with in category" = false →
      (pyIn "Rank with in category" txt || pyIn "Category average" txt) = true →
      pyTrim a1 = a1 → pyTrim a3 = a3 → pyTrim a5 = a5 → pyTrim aA = aA →
      pyTrim b1 = b1 → pyTrim b3 = b3 → pyTrim b5 = b5 → pyTrim bA = bA →
      pyTrim r1 = r1 → pyTrim r3 = r3 → pyTrim r5 = r5 → pyTrim rA = rA →
      dictGet? (extract_returns_and_rank
        [⟨[⟨[thCell "", thCell "1Y", thCell "3Y", thCell "5Y", thCell "All"]⟩,
           ⟨[tdCell "Fund returns", tdCell a1, tdCell a3, tdCell a5, tdCell aA]⟩,
           ⟨[tdCell "Category average", tdCell b1, tdCell b3, tdCell b5, tdCell bA]⟩,
           ⟨[tdCell "Rank with in category", tdCell r1, tdCell r3, tdCell r5, tdCell rA]⟩],
          txt⟩] data) "1Y Fund Return" = some a1 ∧
      dictGet? (extract_returns_and_rank
        [⟨[⟨[thCell "", thCell "1Y", thCell "3Y", thCell "5Y", thCell "All"]⟩,
           ⟨[tdCell "Fund returns", tdCell a1, tdCell a3, tdCell a5, tdCell aA]⟩,
           ⟨[tdCell "Category average", tdCell b1, tdCell b3, tdCell b5, tdCell bA]⟩,
           ⟨[tdCell "Rank with in category", tdCell r1, tdCell r3, tdCell r5, tdCell rA]⟩],
          txt⟩] data) "3Y Fund Return" = some a3 ∧
      dictGet? (extract_returns_and_rank
        [⟨[⟨[thCell "", thCell "1Y", thCell "3Y", thCell "5Y", thCell "All"]⟩,
           ⟨[tdCell "Fund returns", tdCell a1, tdCell a3, tdCell a5, tdCell aA]⟩,
           ⟨[tdCell "Category average", tdCell b1, tdCell b3, tdCell b5, tdCell bA]⟩,
           ⟨[tdCell "Rank with in category", tdCell r1, tdCell r3, tdCell r5, tdCell rA]⟩],
          txt⟩] data) "5Y Fund Return" = some a5 ∧
      dictGet? (extract_returns_and_rank
        [⟨[⟨[thCell "", thCell "1Y", thCell "3Y", thCell "5Y", thCell "All"]⟩,
           ⟨[tdCell "Fund returns", tdCell a1, tdCell a3, tdCell a5, tdCell aA]⟩,
           ⟨[tdCell "Category average", tdCell b1, tdCell b3, tdCell b5, tdCell bA]⟩,
           ⟨[tdCell "Rank with in category", tdCell r1, tdCell r3, tdCell r5, tdCell rA]⟩],
          txt⟩] data) "All Fund Return" = some aA ∧
      dictGet? (extract_returns_and_rank
        [⟨[⟨[thCell "", thCell "1Y", thCell "3Y", thCell "5Y", thCell "All"]⟩,
           ⟨[tdCell "Fund returns", tdCell a1, tdCell a3, tdCell a5, tdCell aA]⟩,
           ⟨[tdCell "Category average", tdCell b1, tdCell b3, tdCell b5, tdCell bA]⟩,
           ⟨[tdCell "Rank with in category", tdCell r1, tdCell r3, tdCell r5, tdCell rA]⟩],
          txt⟩] data) "1Y Category Avg" = some b1 ∧
      dictGet? (extract_returns_and_rank
        [⟨[⟨[thCell "", thCell "1Y", thCell "3Y", thCell "5Y", thCell "All"]⟩,
           ⟨[tdCell "Fund returns", tdCell a1, tdCell a3, tdCell a5, tdCell aA]⟩,
           ⟨[tdCell "Category average", tdCell b1, tdCell b3, tdCell b5, tdCell bA]⟩,
           ⟨[tdCell "Rank with in category", tdCell r1, tdCell r3, tdCell r5, tdCell rA]⟩],
          txt⟩] data) "3Y Category Avg" = some b3 ∧
      dictGet? (extract_returns_and_rank
        [⟨[⟨[thCell "", thCell "1Y", thCell "3Y", thCell "5Y", thCell "All"]⟩,
           ⟨[tdCell "Fund returns", tdCell a1, tdCell a3, tdCell a5, tdCell aA]⟩,
           ⟨[tdCell "Category average", tdCell b1, tdCell b3, tdCell b5, tdCell bA]⟩,
           ⟨[tdCell "Rank with in category", tdCell r1, tdCell r3, tdCell r5, tdCell rA]⟩],
          txt⟩] data) "5Y Category Avg" = some b5 ∧
      dictGet? (extract_returns_and_rank
        [⟨[⟨[thCell "", thCell "1Y", thCell "3Y", thCell "5Y", thCell "All"]⟩,
           ⟨[tdCell "Fund returns", tdCell a1, tdCell a3, tdCell a5, tdCell aA]⟩,
           ⟨[tdCell "Category average", tdCell b1, tdCell b3, tdCell b5, tdCell bA]⟩,
           ⟨[tdCell "Rank with in category", tdCell r1, tdCell r3, tdCell r5, tdCell rA]⟩],
          txt⟩] data) "All Category Avg" = some bA ∧
      dictGet? (extract_returns_and_rank
        [⟨[⟨[thCell "", thCell "1Y", thCell "3Y", thCell "5Y", thCell "All"]⟩,
           ⟨[tdCell "Fund returns", tdCell a1, tdCell a3, tdCell a5, tdCell aA]⟩,
           ⟨[tdCell "Category average", tdCell b1, tdCell b3, tdCell b5, tdCell bA]⟩,
           ⟨[tdCell "Rank with in category", tdCell r1, tdCell r3, tdCell r5, tdCell rA]⟩],
          txt⟩] data) "1Y Rank" = some r1 ∧
      dictGet? (extract_returns_and_rank
        [⟨[⟨[thCell "", thCell "1Y", thCell "3Y", thCell "5Y", thCell "All"]⟩,
           ⟨[tdCell "Fund returns", tdCell a1, tdCell a3, tdCell a5, tdCell aA]⟩,
           ⟨[tdCell "Category average", tdCell b1, tdCell b3, tdCell b5, tdCell bA]⟩,
           ⟨[tdCell "Rank with in category", tdCell r1, tdCell r3, tdCell r5, tdCell rA]⟩],
          txt⟩] data) "3Y Rank" = some r3 ∧
      dictGet? (extract_returns_and_rank
        [⟨[⟨[thCell "", thCell "1Y", thCell "3Y", thCell "5Y", thCell "All"]⟩,
           ⟨[tdCell "Fund returns", tdCell a1, tdCell a3, tdCell a5, tdCell aA]⟩,
           ⟨[tdCell "Category average", tdCell b1, tdCell b3, tdCell b5, tdCell bA]⟩,
           ⟨[tdCell "Rank with in category", tdCell r1, tdCell r3, tdCell r5, tdCell rA]⟩],
          txt⟩] data) "5Y Rank" = some r5 ∧
      dictGet? (extract_returns_and_rank
        [⟨[⟨[thCell "", thCell "1Y", thCell "3Y", thCell "5Y", thCell "All"]⟩,
           ⟨[tdCell "Fund returns", tdCell a1, tdCell a3, tdCell a5, tdCell aA]⟩,
           ⟨[tdCell "Category average", tdCell b1, tdCell b3, tdCell b5, tdCell bA]⟩,
           ⟨[tdCell "Rank with in category", tdCell r1, tdCell r3, tdCell r5, tdCell rA]⟩],
          txt⟩] data) "All Rank" = some rA) ∧
    (∀ (tables : List Table) (data : Dict),
      (∀ t ∈ tables,
        (pyIn "Rank with in category" t.text || pyIn "Category average" t.text) = false) →
      ∀ f ∈ rrFieldNames, dictGet? (extract_returns_and_rank tables data) f = some "NA") ∧
    (dictGet? (extract_returns_and_rank [extraPeriodTable] [("Fund Name", "Zeta Fund")])
        "1Y Fund Return" = some "7%" ∧
      dictGet? (extract_returns_and_rank [extraPeriodTable] [("Fund Name", "Zeta Fund")])
        "1Y Category Avg" = some "5%" ∧
      dictGet? (extract_returns_and_rank [extraPeriodTable] [("Fund Name", "Zeta Fund")])
        "3Y Fund Return" = some "NA" ∧
      dictGet? (extract_returns_and_rank [extraPeriodTable] [("Fund Name", "Zeta Fund")])
        "5Y Fund Return" = some "NA" ∧
      dictGet? (extract_returns_and_rank [extraPeriodTable] [("Fund Name", "Zeta Fund")])
        "All Fund Return" = some "NA" ∧
      dictGet? (extract_returns_and_rank [extraPeriodTable] [("Fund Name", "Zeta Fund")])
        "10Y Fund Return" = none) ∧
    (∀ (tables : List Table) (data : Dict) (k : String), k ∉ rrFieldNames →
      dictGet? (extract_returns_and_rank tables data) k = dictGet? data k) := by
  refine ⟨?_, ?_, by decide, rr_get_other⟩
  · intro fundName txt a1 a3 a5 aA b1 b3 b5 bA r1 r3 r5 rA data hd hf1 hf2 htxt
      ht1 ht2 ht3 ht4 ht5 ht6 ht7 ht8 ht9 ht10 ht11 ht12
    have h0 : pyIn fundName "" = false := by
      by_cases he : fundName = ""
      · subst he
        rw [pyIn_empty] at hf1
        cases hf1
      · exact pyIn_right_empty _ he
    have harg : dictGetD data "Fund Name" "" = fundName := by
      unfold dictGetD
      rw [hd]
      rfl
    have hst : rrState
        [⟨[⟨[thCell "", thCell "1Y", thCell "3Y", thCell "5Y", thCell "All"]⟩,
           ⟨[tdCell "Fund returns", tdCell a1, tdCell a3, tdCell a5, tdCell aA]⟩,
           ⟨[tdCell "Category average", tdCell b1, tdCell b3, tdCell b5, tdCell bA]⟩,
           ⟨[tdCell "Rank with in category", tdCell r1, tdCell r3, tdCell r5, tdCell rA]⟩],
          txt⟩] fundName =
        ⟨[("1Y", a1), ("3Y", a3), ("5Y", a5), ("All", aA)],
         [("1Y", b1), ("3Y", b3), ("5Y", b5), ("All", bA)],
         [("1Y", r1), ("3Y", r3), ("5Y", r5), ("All", rA)]⟩ := by
      simp [rrState, findReturnsTable, htxt,
        headersOfTable, Table.ths, thCell, tdCell, rrStep, Row.cols, rowBucket,
        h0, hf1, hf2, ht1, ht2, ht3, ht4, ht5, ht6, ht7, ht8, ht9, ht10, ht11, ht12,
        setRow, dictSet, List.enum, List.enumFrom, List.foldl,
        show pyTrim "" = "" from by decide,
        show pyTrim "1Y" = "1Y" from by decide,
        show pyTrim "3Y" = "3Y" from by decide,
        show pyTrim "5Y" = "5Y" from by decide,
        show pyTrim "All" = "All" from by decide,
        show pyTrim "Fund returns" = "Fund returns" from by decide,
        show pyTrim "Category average" = "Category average" from by decide,
        show pyTrim "Rank with in category" = "Rank with in category" from by decide,
        show pyIn "Fund returns" "" = false from by decide,
        show pyIn "Fund returns" "Fund returns" = true from by decide,
        show pyIn "Fund returns" "Category average" = false from by decide,
        show pyIn "Fund returns" "Rank with in category" = false from by decide,
        show pyIn "Category average" "" = false from by decide,
        show pyIn "Category average" "Category average" = true from by decide,
        show pyIn "Category average" "Rank with in category" = false from by decide,
        show pyIn "Rank with in category" "" = false from by decide,
        show pyIn "Rank with in category" "Rank with in category" = true from by decide]
    refine ⟨?_, ?_, ?_, ?_, ?_, ?_, ?_, ?_, ?_, ?_, ?_, ?_⟩ <;>
      · unfold extract_returns_and_rank
        rw [harg, hst]
        simp [rrKVs, setMany, dictGet?_set_same, dictGet?_set_ne, dictGetD, dictGet?]
  · intro tables data h f hf
    have hst : rrState tables (dictGetD data "Fund Name" "") = ⟨[], [], []⟩ :=
      rrState_empty _ _ (findReturnsTable_none _ h)
    fin_cases hf <;>
      first
      | (rw [(rr_get_fields tables data).1, hst]; rfl)
      | (rw [(rr_get_fields tables data).2.1, hst]; rfl)
      | (rw [(rr_get_fields tables data).2.2.1, hst]; rfl)
      | (rw [(rr_get_fields tables data).2.2.2.1, hst]; rfl)
      | (rw [(rr_get_fields tables data).2.2.2.2.1, hst]; rfl)
      | (rw [(rr_get_fields tables data).2.2.2.2.2.1, hst]; rfl)
      | (rw [(rr_get_fields tables data).2.2.2.2.2.2.1, hst]; rfl)
      | (rw [(rr_get_fields tables data).2.2.2.2.2.2.2.1, hst]; rfl)
      | (rw [(rr_get_fields tables data).2.2.2.2.2.2.2.2.1, hst]; rfl)
      | (rw [(rr_get_fields tables data).2.2.2.2.2.2.2.2.2.1, hst]; rfl)
      | (rw [(rr_get_fields tables data).2.2.2.2.2.2.2.2.2.2.1, hst]; rfl)
      | (rw [(rr_get_fields tables data).2.2.2.2.2.2.2.2.2.2.2, hst]; rfl)

/-- C6 witness: the twelve-field theorem evaluated on a concrete table. -/
theorem C6_witness :
    dictGet? [("Fund Name", "HDFC Top Fund")] "Fund Name" = some "HDFC Top Fund" ∧
    pyIn "HDFC Top Fund" "Category average" = false ∧
    pyIn "HDFC Top Fund" "Rank with in category" = false ∧
    (pyIn "Rank with in category" "Fund returnsCategory averageRank with in category" ||
      pyIn "Category average" "Fund returnsCategory averageRank with in category") = true ∧
    dictGet? (extract_returns_and_rank
      [⟨[⟨[thCell "", thCell "1Y", thCell "3Y", thCell "5Y", thCell "All"]⟩,
         ⟨[tdCell "Fund returns", tdCell "15.2%", tdCell "18.5%", tdCell "14.3%",
           tdCell "12.8%"]⟩,
         ⟨[tdCell "Category average", tdCell "13.5%", tdCell "16.2%", tdCell "12.9%",
           tdCell "11.5%"]⟩,
         ⟨[tdCell "Rank with in category", tdCell "45", tdCell "32", tdCell "28",
           tdCell "25"]⟩],
        "Fund returnsCategory averageRank with in category"⟩]
      [("Fund Name", "HDFC Top Fund")]) "1Y Fund Return" = some "15.2%" ∧
    dictGet? (extract_returns_and_rank
      [⟨[⟨[thCell "", thCell "1Y", thCell "3Y", thCell "5Y", thCell "All"]⟩,
         ⟨[tdCell "Fund returns", tdCell "15.2%", tdCell "18.5%", tdCell "14.3%",
           tdCell "12.8%"]⟩,
         ⟨[tdCell "Category average", tdCell "13.5%", tdCell "16.2%", tdCell "12.9%",
           tdCell "11.5%"]⟩,
         ⟨[tdCell "Rank with in category", tdCell "45", tdCell "32", tdCell "28",
           tdCell "25"]⟩],
        "Fund returnsCategory averageRank with in category"⟩]
      [("Fund Name", "HDFC Top Fund")]) "All Rank" = some "25" := by
  have h := C6_returns_rank_twelve_fields.1 "HDFC Top Fund"
    "Fund returnsCategory averageRank with in category"
    "15.2%" "18.5%" "14.3%" "12.8%" "13.5%" "16.2%" "12.9%" "11.5%" "45" "32" "28" "25"
    [("Fund Name", "HDFC Top Fund")] (by decide) (by decide) (by decide) (by decide)
    (by decide) (by decide) (by decide) (by decide) (by decide) (by decide) (by decide)
    (by decide) (by decide) (by decide) (by decide) (by decide)
  exact ⟨by decide, by decide, by decide, by decide, h.1,
    h.2.2.2.2.2.2.2.2.2.2.2⟩

theorem rowBucket_empty_name (label : String) : rowBucket "" label = some Bucket.fr := by
  simp [rowBucket, pyIn_empty]

theorem rr_fold_empty_name : ∀ (rows : List Row) (headers : List String) (frD : Dict),
    rows.foldl (rrStep "" headers) ⟨frD, [], []⟩ =
      ⟨rows.foldl
        (fun d r =>
          match r.cols.map (fun c => pyTrim c.text) with
          | [] => d
          | cts => setRow headers cts d) frD, [], []⟩ := by
  intro rows
  induction rows with
  | nil => intro headers frD; rfl
  | cons r rs ih =>
    intro headers frD
    rw [List.foldl_cons, List.foldl_cons]
    rcases hc : r.cols.map (fun c => pyTrim c.text) with _ | ⟨label, rest⟩
    · simp only [rrStep, hc]
      exact ih headers frD
    · simp only [rrStep, hc, rowBucket_empty_name label]
      exact ih headers (setRow headers (label :: rest) frD)

theorem rrState_empty_name_of_find (tables : List Table) (t : Table)
    (hf : findReturnsTable tables = some t) :
    rrState tables "" = ⟨frAll t, [], []⟩ := by
  have h1 : rrState tables "" =
      t.rows.foldl (rrStep "" (headersOfTable t)) ⟨[], [], []⟩ := by
    unfold rrState
    rw [hf]
  rw [h1, rr_fold_empty_name]
  rfl

/-- C9: when the extracted Fund Name is the empty string, the row
classifier sends every label to the fund-returns bucket (the empty string
is a substring of every label and that test is checked first), so all
Category Avg and Rank fields are NA and the fund-return dictionary is the
fold of ALL non-empty rows, later rows overwriting earlier ones. -/
theorem C9_empty_fund_name_classification (tables : List Table) (data : Dict)
    (hd : dictGet? data "Fund Name" = some "") :
    (∀ label, rowBucket "" label = some Bucket.fr) ∧
    (∀ t, findReturnsTable tables = some t → rrState tables "" = ⟨frAll t, [], []⟩) ∧
    (dictGet? (extract_returns_and_rank tables data) "1Y Category Avg" = some "NA" ∧
     dictGet? (extract_returns_and_rank tables data) "3Y Category Avg" = some "NA" ∧
     dictGet? (extract_returns_and_rank tables data) "5Y Category Avg" = some "NA" ∧
     dictGet? (extract_returns_and_rank tables data) "All Category Avg" = some "NA" ∧
     dictGet? (extract_returns_and_rank tables data) "1Y Rank" = some "NA" ∧
     dictGet? (extract_returns_and_rank tables data) "3Y Rank" = some "NA" ∧
     dictGet? (extract_returns_and_rank tables data) "5Y Rank" = some "NA" ∧
     dictGet? (extract_returns_and_rank tables data) "All Rank" = some "NA") ∧
    (∀ t, findReturnsTable tables = some t →
      dictGet? (extract_returns_and_rank tables data) "1Y Fund Return" =
        some (dictGetD (frAll t) "1Y" "NA") ∧
      dictGet? (extract_returns_and_rank tables data) "3Y Fund Return" =
        some (dictGetD (frAll t) "3Y" "NA") ∧
      dictGet? (extract_returns_and_rank tables data) "5Y Fund Return" =
        some (dictGetD (frAll t) "5Y" "NA") ∧
      dictGet? (extract_returns_and_rank tables data) "All Fund Return" =
        some (dictGetD (frAll t) "All" "NA")) := by
  have harg : dictGetD data "Fund Name" "" = "" := by
    unfold dictGetD
    rw [hd]
    rfl
  have hcark : (rrState tables "").ca = [] ∧ (rrState tables "").rk = [] := by
    cases hf : findReturnsTable tables with
    | none =>
      rw [rrState_empty tables "" hf]
      exact ⟨rfl, rfl⟩
    | some t =>
      rw [rrState_empty_name_of_find tables t hf]
      exact ⟨rfl, rfl⟩
  refine ⟨rowBucket_empty_name, fun t hf => rrState_empty_name_of_find tables t hf,
    ?_, ?_⟩
  · obtain ⟨_, g2, g3, _, g5, g6, _, g8, g9, _, g11, g12⟩ := rr_get_fields tables data
    rw [harg] at g2 g3 g5 g6 g8 g9 g11 g12
    exact ⟨by rw [g2, hcark.1]; rfl, by rw [g5, hcark.1]; rfl, by rw [g8, hcark.1]; rfl,
      by rw [g11, hcark.1]; rfl, by rw [g3, hcark.2]; rfl, by rw [g6, hcark.2]; rfl,
      by rw [g9, hcark.2]; rfl, by rw [g12, hcark.2]; rfl⟩
  · intro t hf
    obtain ⟨g1, _, _, g4, _, _, g7, _, _, g10, _, _⟩ := rr_get_fields tables data
    rw [harg] at g1 g4 g7 g10
    have hst := rrState_empty_name_of_find tables t hf
    exact ⟨by rw [g1, hst], by rw [g4, hst], by rw [g7, hst], by rw [g10, hst]⟩

/-- C9 witness: the theorem evaluated on a concrete returns table with an
empty fund name; the last row (the rank row) wins the fund-returns bucket. -/
theorem C9_witness :
    dictGet? [("Fund Name", "")] "Fund Name" = some "" ∧
    rowBucket "" "Category average" = some Bucket.fr ∧
    dictGet? (extract_returns_and_rank [emptyNameTable] [("Fund Name", "")])
      "1Y Category Avg" = some "NA" ∧
    dictGet? (extract_returns_and_rank [emptyNameTable] [("Fund Name", "")])
      "1Y Rank" = some "NA" ∧
    dictGet? (extract_returns_and_rank [emptyNameTable] [("Fund Name", "")])
      "1Y Fund Return" = some (dictGetD (frAll emptyNameTable) "1Y" "NA") ∧
    dictGetD (frAll emptyNameTable) "1Y" "NA" = "4" := by
  have h := C9_empty_fund_name_classification [emptyNameTable] [("Fund Name", "")]
    (by decide)
  exact ⟨by decide, h.1 "Category average", h.2.2.1.1, h.2.2.1.2.2.2.2.1,
    (h.2.2.2 emptyNameTable (by decide)).1, by decide⟩

/-- C10 witness: an Exit load block with no paragraph child yields NA. -/
theorem C10_witness :
    (∀ x ∈ [(⟨"Exit load", some "Exit load", none⟩ : Heading)],
      exitMatch x = true → x.p = none) ∧
    dictGet? (extract_expense_and_load [⟨"Exit load", some "Exit load", none⟩] [])
      "Exit Load" = some "NA" :=
  ⟨by decide, C10_exit_load_without_paragraph [⟨"Exit load", some "Exit load", none⟩]
    [] (by decide)⟩

end Groww
